import Mathlib

/-!
# Verification of the taxipro-api shift ledger and launch-data verifier

Shallow embedding of the server (latest snapshot, `src/unnamed/part_000`;
the spec's design notes declare this de-duplicated latest endpoint set
canonical over the older `src/server.js` snapshot).

Conventions of the embedding:
* JavaScript numbers are modelled by exact rationals (`ℚ`); `NaN` and the
  infinities, which arise only from string conversion and are immediately
  collapsed by the code's finiteness guard, are modelled by the `JSNum` type.
* JSON scalar values reachable in a shift payload are modelled by `JValue`
  (number, string, boolean, null); an absent (undefined) field is `Option.none`.
* The external crypto (two chained HMAC-SHA256 calls) is abstracted as an
  opaque-function parameter `hmac : String → String → String`, and the
  platform JSON parser as `jsonParse : String → Option JsonVal`; a concrete
  executable JSON parser `jsonParse0` is supplied for witnesses.
* The document store is a list of rows plus a fresh-id counter; Mongo's
  `findOneAndUpdate`/`findOneAndDelete` become first-match update/remove.
-/

/-- A JavaScript number as produced by `Number(...)`: a finite value (exact
rational idealisation of the float), an infinity, or `NaN`. -/
inductive JSNum where
  | num (q : ℚ)
  | posInf
  | negInf
  | nan
deriving DecidableEq

/-- A JSON scalar value as stored in a shift payload field. -/
inductive JValue where
  | num (q : ℚ)
  | str (s : String)
  | bool (b : Bool)
  | null
deriving DecidableEq

namespace JsNumber

/-- Characters treated as whitespace by JS `StringToNumber` (ASCII fragment). -/
def isJsWs (c : Char) : Bool :=
  c = ' ' || c = '\t' || c = '\n' || c = '\r' || c = '\x0b' || c = '\x0c'

def isDigit (c : Char) : Bool := '0' ≤ c && c ≤ '9'

def isHexDigit (c : Char) : Bool :=
  isDigit c || ('a' ≤ c && c ≤ 'f') || ('A' ≤ c && c ≤ 'F')

def digitVal (c : Char) : ℕ :=
  if c = '0' then 0 else if c = '1' then 1 else if c = '2' then 2
  else if c = '3' then 3 else if c = '4' then 4 else if c = '5' then 5
  else if c = '6' then 6 else if c = '7' then 7 else if c = '8' then 8
  else if c = '9' then 9
  else if c = 'a' || c = 'A' then 10 else if c = 'b' || c = 'B' then 11
  else if c = 'c' || c = 'C' then 12 else if c = 'd' || c = 'D' then 13
  else if c = 'e' || c = 'E' then 14 else if c = 'f' || c = 'F' then 15
  else 0

/-- Value of a non-empty digit string in the given base; `none` if empty or
a character is not a digit of the base. -/
def digitsVal (valid : Char → Bool) (base : ℕ) (cs : List Char) : Option ℕ :=
  match cs with
  | [] => none
  | _ =>
    if cs.all valid then
      some (cs.foldl (fun acc c => acc * base + digitVal c) 0)
    else none

/-- Split off the longest digit prefix. -/
def spanDigits (cs : List Char) : List Char × List Char :=
  (cs.takeWhile isDigit, cs.dropWhile isDigit)

/-- Parse an optional exponent part (`e`/`E`, optional sign, digits) which
must consume the rest of the input.  Returns the signed exponent. -/
def parseExponent (cs : List Char) : Option ℤ :=
  match cs with
  | [] => some 0
  | e :: rest =>
    if e = 'e' || e = 'E' then
      let (sign, rest2) : ℤ × List Char :=
        match rest with
        | '+' :: r => (1, r)
        | '-' :: r => (-1, r)
        | r => (1, r)
      let (ds, rest3) := spanDigits rest2
      match ds, rest3 with
      | [], _ => none
      | _, _ :: _ => none
      | _, [] => (digitsVal isDigit 10 ds).map (fun v => sign * (v : ℤ))
    else none

/-- Fraction value of a digit list: `ds` read as the digits after the point. -/
def fracVal (ds : List Char) : ℚ :=
  (((digitsVal isDigit 10 ds).getD 0 : ℚ)) / ((10 : ℚ) ^ ds.length)

/-- Parse an unsigned `StrUnsignedDecimalLiteral` (whole input). -/
def parseUnsignedDec (cs : List Char) : Option ℚ :=
  let (ipart, rest1) := spanDigits cs
  match rest1 with
  | '.' :: rest2 =>
    let (fpart, rest3) := spanDigits rest2
    if ipart.isEmpty && fpart.isEmpty then none
    else
      (parseExponent rest3).map (fun e =>
        (((digitsVal isDigit 10 ipart).getD 0 : ℚ) + fracVal fpart) * (10 : ℚ) ^ e)
  | _ =>
    if ipart.isEmpty then none
    else
      (parseExponent rest1).map (fun e =>
        ((digitsVal isDigit 10 ipart).getD 0 : ℚ) * (10 : ℚ) ^ e)

/-- Parse a `StrNumericLiteral` (whole input, already trimmed, non-empty). -/
def parseNumeric (cs : List Char) : Option JSNum :=
  match cs with
  | '0' :: x :: rest =>
    if x = 'x' || x = 'X' then (digitsVal isHexDigit 16 rest).map (fun v => .num v)
    else if x = 'o' || x = 'O' then
      (digitsVal (fun c => '0' ≤ c && c ≤ '7') 8 rest).map (fun v => .num v)
    else if x = 'b' || x = 'B' then
      (digitsVal (fun c => c = '0' || c = '1') 2 rest).map (fun v => .num v)
    else signedDec cs
  | _ => signedDec cs
where
  signedDec (cs : List Char) : Option JSNum :=
    let (neg, body) : Bool × List Char :=
      match cs with
      | '+' :: r => (false, r)
      | '-' :: r => (true, r)
      | r => (false, r)
    if body = "Infinity".toList then some (if neg then .negInf else .posInf)
    else (parseUnsignedDec body).map (fun q => .num (if neg then -q else q))

/-- JS `Number(string)` (`StringToNumber`): trim whitespace, empty means `0`,
otherwise the whole remainder must be a numeric literal, else `NaN`. -/
def strToNumber (s : String) : JSNum :=
  let t := (s.toList.dropWhile isJsWs).reverse.dropWhile isJsWs |>.reverse
  if t.isEmpty then .num 0
  else match parseNumeric t with
    | some v => v
    | none => .nan

/-- JS `Number(v)` on a possibly-absent JSON scalar (`none` = `undefined`). -/
def toNumber (v : Option JValue) : JSNum :=
  match v with
  | none => .nan
  | some .null => .num 0
  | some (.bool b) => .num (if b then 1 else 0)
  | some (.num q) => .num q
  | some (.str s) => strToNumber s

end JsNumber

open JsNumber

/-- The server's `n` helper:
`const n = v => (Number.isFinite(Number(v)) ? Number(v) : 0)`. -/
def n (v : Option JValue) : ℚ :=
  match toNumber v with
  | .num q => q
  | _ => 0

/-- JS truthiness of a JSON scalar. -/
def jvTruthy (v : JValue) : Bool :=
  match v with
  | .num q => q ≠ 0
  | .str s => s ≠ ""
  | .bool b => b
  | .null => false

/-- JS `x != null` (loose): the field is present and not `null`. -/
def isSet (v : Option JValue) : Bool :=
  match v with
  | none => false
  | some .null => false
  | some _ => true

/-- JS `Math.round` on a finite number: `⌊x + 1/2⌋`. -/
def jsRound (q : ℚ) : ℚ := (⌊q + 1/2⌋ : ℤ)

/-! ## JSON values and a concrete JSON parser

`JSON.parse` is a platform builtin; the verifier is parameterised over it,
and `jsonParse0` below is a concrete executable implementation of the JSON
grammar used to instantiate witnesses and counterexamples. -/

/-- A parsed JSON value. -/
inductive JsonVal where
  | null
  | bool (b : Bool)
  | num (q : ℚ)
  | str (s : String)
  | arr (elems : List JsonVal)
  | obj (fields : List (String × JsonVal))

namespace Json

open JsNumber

def skipWs (cs : List Char) : List Char :=
  cs.dropWhile (fun c => c = ' ' || c = '\t' || c = '\n' || c = '\r')

/-- Parse the body of a JSON string after the opening quote; returns the
decoded characters and the input after the closing quote. -/
def parseStringBody : List Char → Option (List Char × List Char)
  | [] => none
  | '"' :: rest => some ([], rest)
  | '\\' :: esc =>
    match esc with
    | 'u' :: h1 :: h2 :: h3 :: h4 :: rest =>
      if isHexDigit h1 && isHexDigit h2 && isHexDigit h3 && isHexDigit h4 then
        (parseStringBody rest).map (fun p =>
          (Char.ofNat (4096 * digitVal h1 + 256 * digitVal h2 + 16 * digitVal h3 + digitVal h4)
            :: p.1, p.2))
      else none
    | c :: rest =>
      let dec : Option Char :=
        if c = '"' then some '"' else if c = '\\' then some '\\'
        else if c = '/' then some '/' else if c = 'b' then some '\x08'
        else if c = 'f' then some '\x0c' else if c = 'n' then some '\n'
        else if c = 'r' then some '\r' else if c = 't' then some '\t' else none
      match dec with
      | some d => (parseStringBody rest).map (fun p => (d :: p.1, p.2))
      | none => none
    | [] => none
  | c :: rest =>
    if c.toNat < 32 then none
    else (parseStringBody rest).map (fun p => (c :: p.1, p.2))

/-- Parse a JSON number literal (strict grammar: no leading zeros, fraction
and exponent digits required when the marker is present). -/
def parseJsonNumber (cs : List Char) : Option (ℚ × List Char) :=
  let signBody : Bool × List Char :=
    match cs with
    | '-' :: r => (true, r)
    | r => (false, r)
  let neg := signBody.1
  let body := signBody.2
  let intPart : Option (ℕ × List Char) :=
    match body with
    | '0' :: r =>
      match r with
      | c :: _ => if isDigit c then none else some (0, r)
      | [] => some (0, [])
    | c :: _ =>
      if isDigit c then
        let p := spanDigits body
        (digitsVal isDigit 10 p.1).map (fun v => (v, p.2))
      else none
    | [] => none
  match intPart with
  | none => none
  | some (iv, rest1) =>
    let fracPart : Option (ℚ × List Char) :=
      match rest1 with
      | '.' :: r2 =>
        let p := spanDigits r2
        if p.1.isEmpty then none else some (fracVal p.1, p.2)
      | _ => some (0, rest1)
    match fracPart with
    | none => none
    | some (fv, rest2) =>
      let expPart : Option (ℤ × List Char) :=
        match rest2 with
        | e :: r3 =>
          if e = 'e' || e = 'E' then
            let se : ℤ × List Char :=
              match r3 with
              | '+' :: r4 => (1, r4)
              | '-' :: r4 => (-1, r4)
              | r4 => (1, r4)
            let p := spanDigits se.2
            if p.1.isEmpty then none
            else (digitsVal isDigit 10 p.1).map (fun v => (se.1 * (v : ℤ), p.2))
          else some (0, rest2)
        | [] => some (0, [])
      match expPart with
      | none => none
      | some (ev, rest3) =>
        let mag : ℚ := ((iv : ℚ) + fv) * (10 : ℚ) ^ ev
        some (if neg then -mag else mag, rest3)

mutual

/-- Parse one JSON value (fuel-based recursion). -/
def parseValue : ℕ → List Char → Option (JsonVal × List Char)
  | 0, _ => none
  | fuel + 1, cs =>
    match skipWs cs with
    | 'n' :: 'u' :: 'l' :: 'l' :: rest => some (.null, rest)
    | 't' :: 'r' :: 'u' :: 'e' :: rest => some (.bool true, rest)
    | 'f' :: 'a' :: 'l' :: 's' :: 'e' :: rest => some (.bool false, rest)
    | '"' :: rest => (parseStringBody rest).map (fun p => (.str (String.mk p.1), p.2))
    | '[' :: rest =>
      (match skipWs rest with
       | ']' :: r2 => some (.arr [], r2)
       | r2 => (parseElems fuel r2).map (fun p => (.arr p.1, p.2)))
    | '\x7b' :: rest =>
      (match skipWs rest with
       | '\x7d' :: r2 => some (.obj [], r2)
       | r2 => (parseFields fuel r2).map (fun p => (.obj p.1, p.2)))
    | rest => (parseJsonNumber rest).map (fun p => (.num p.1, p.2))

/-- Parse a non-empty comma-separated element list and the closing bracket. -/
def parseElems : ℕ → List Char → Option (List JsonVal × List Char)
  | 0, _ => none
  | fuel + 1, cs =>
    match parseValue fuel cs with
    | none => none
    | some (v, rest) =>
      match skipWs rest with
      | ',' :: r2 => (parseElems fuel r2).map (fun p => (v :: p.1, p.2))
      | ']' :: r2 => some ([v], r2)
      | _ => none

/-- Parse a non-empty `"key": value` list and the closing brace. -/
def parseFields : ℕ → List Char → Option (List (String × JsonVal) × List Char)
  | 0, _ => none
  | fuel + 1, cs =>
    match skipWs cs with
    | '"' :: rest =>
      match parseStringBody rest with
      | none => none
      | some (k, rest2) =>
        match skipWs rest2 with
        | ':' :: rest3 =>
          match parseValue fuel rest3 with
          | none => none
          | some (v, rest4) =>
            match skipWs rest4 with
            | ',' :: r5 => (parseFields fuel r5).map (fun p => ((String.mk k, v) :: p.1, p.2))
            | '\x7d' :: r5 => some ([(String.mk k, v)], r5)
            | _ => none
        | _ => none
    | _ => none

end

end Json

/-- Concrete executable model of `JSON.parse`: parses the whole string as one
JSON value (trailing whitespace allowed); `none` models a thrown SyntaxError. -/
def jsonParse0 (s : String) : Option JsonVal :=
  match Json.parseValue (s.length + 1) s.toList with
  | some (v, rest) => if (Json.skipWs rest).isEmpty then some v else none
  | none => none

/-! ## URL-encoded launch data and `verifyInitData` -/

namespace Url

open JsNumber

/-- Percent-decoding plus `+`-to-space, as applied by `URLSearchParams` to each
key and value (byte values are idealised as code points). -/
def percentDecode : List Char → List Char
  | [] => []
  | '%' :: h1 :: h2 :: rest =>
    if isHexDigit h1 && isHexDigit h2 then
      Char.ofNat (16 * digitVal h1 + digitVal h2) :: percentDecode rest
    else '%' :: percentDecode (h1 :: h2 :: rest)
  | '+' :: rest => ' ' :: percentDecode rest
  | c :: rest => c :: percentDecode rest

def decodeComp (cs : List Char) : String := String.mk (percentDecode cs)

/-- Split one `key=value` segment at the first `=` and decode both sides. -/
def parsePair (seg : List Char) : String × String :=
  match seg.dropWhile (· ≠ '=') with
  | '=' :: rest => (decodeComp (seg.takeWhile (· ≠ '=')), decodeComp rest)
  | _ => (decodeComp seg, "")

/-- Split a character list on a separator character. -/
def splitOnChar (sep : Char) : List Char → List (List Char)
  | [] => [[]]
  | c :: rest =>
    if c = sep then [] :: splitOnChar sep rest
    else
      match splitOnChar sep rest with
      | [] => [[c]]
      | seg :: segs => (c :: seg) :: segs

/-- `new URLSearchParams(raw)`: optional leading `?`, `&`-separated segments,
empty segments skipped, insertion order kept, duplicate keys kept. -/
def parseParams (raw : String) : List (String × String) :=
  let cs : List Char :=
    match raw.toList with
    | '?' :: r => r
    | r => r
  ((splitOnChar '&' cs).filter (fun seg => ¬seg.isEmpty)).map parsePair

/-- `urlParams.get(k)`: value of the first pair with the given key. -/
def lookupFirst (k : String) (ps : List (String × String)) : Option String :=
  (ps.find? (fun kv => kv.1 == k)).map (fun kv => kv.2)

/-- Lexicographic code-point order on character lists. -/
def charsLt : List Char → List Char → Bool
  | [], [] => false
  | [], _ :: _ => true
  | _ :: _, [] => false
  | a :: as, b :: bs => if a < b then true else if b < a then false else charsLt as bs

/-- Strict lexicographic code-point order on strings. -/
def strLt (a b : String) : Bool := charsLt a.toList b.toList

/-- Comparator used to sort entries by key (`localeCompare` idealised as
code-point order, which agrees with it on the ASCII field names in play). -/
def keyLe (a b : String × String) : Bool := strLt a.1 b.1 || a.1 == b.1

def insertSorted (x : String × String) : List (String × String) → List (String × String)
  | [] => [x]
  | y :: ys => if keyLe x y then x :: y :: ys else y :: insertSorted x ys

/-- Stable sort of the entries by key (`entries.sort(localeCompare)`). -/
def sortEntries (ps : List (String × String)) : List (String × String) :=
  ps.foldr insertSorted []

/-- `entries.map(([k,v]) => k + "=" + v).join("\n")`. -/
def joinEntries (ps : List (String × String)) : String :=
  String.intercalate "\n" (ps.map (fun kv => kv.1 ++ "=" ++ kv.2))

/-- `Object.fromEntries`: last value per key wins, first-occurrence key order. -/
def fromEntries (ps : List (String × String)) : List (String × String) :=
  ps.foldl (fun acc kv =>
    if acc.any (fun e => e.1 == kv.1) then
      acc.map (fun e => if e.1 == kv.1 then (e.1, kv.2) else e)
    else acc ++ [kv]) []

end Url

/-- Result of `verifyInitData`: a decoded user plus the sorted field map, or a
machine-readable error code. -/
inductive VerifyResult where
  | ok (user : JsonVal) (params : List (String × String))
  | err (code : String)

/-- The entries of the launch data minus the `hash` field (the state of
`urlParams` after `urlParams.delete('hash')`). -/
def nonHashEntries (raw : String) : List (String × String) :=
  (Url.parseParams raw).filter (fun kv => kv.1 != "hash")

/-- `Number(urlParams.get('auth_date') || 0)`. -/
def authDateNum (rest : List (String × String)) : JSNum :=
  match Url.lookupFirst "auth_date" rest with
  | none => .num 0
  | some s => if s = "" then .num 0 else JsNumber.strToNumber s

/-- JS falsiness of the parsed `auth_date` (`!authDate`): `NaN` or `0`. -/
def authFalsy (x : JSNum) : Bool := x == .nan || x == .num 0

/-- `now - authDate > 300` under JS arithmetic (`NaN` comparisons false). -/
def staleGt (now : ℤ) (x : JSNum) : Bool :=
  match x with
  | .num q => decide ((now : ℚ) - q > 300)
  | .posInf => false
  | .negInf => true
  | .nan => false

/-- The full freshness-rejection condition `!authDate || now - authDate > 300`. -/
def staleCond (now : ℤ) (x : JSNum) : Bool := authFalsy x || staleGt now x

/-- The argument handed to `JSON.parse` for the `user` field; a missing field
is the JS `null`, which `JSON.parse` stringifies to `"null"`. -/
def userArg (rest : List (String × String)) : String :=
  (Url.lookupFirst "user" rest).getD "null"

/-- The server's `verifyInitData`, parameterised over the composite
HMAC-SHA256 pipeline (`hmac botToken dataCheckString`, covering the
`"WebAppData"`-keyed derivation and the hex digest) and the platform JSON
parser. -/
def verifyInitData (hmac : String → String → String) (jsonParse : String → Option JsonVal)
    (botToken : String) (now : ℤ) (raw : String) : VerifyResult :=
  if raw = "" then .err "no_init_data"
  else
    match Url.lookupFirst "hash" (Url.parseParams raw) with
    | none => .err "no_hash"
    | some h =>
      if h = "" then .err "no_hash"
      else
        let rest := nonHashEntries raw
        let entries := Url.sortEntries rest
        let dataCheckString := Url.joinEntries entries
        if botToken = "" then .err "no_bot_token"
        else if hmac botToken dataCheckString ≠ h then .err "bad_hash"
        else if staleCond now (authDateNum rest) then .err "stale_auth"
        else
          match jsonParse (userArg rest) with
          | none => .err "bad_user_json"
          | some u => .ok u (Url.fromEntries entries)

/-- The launch data survived the four checks preceding the freshness check:
it is non-empty, carries a `hash`, a bot token is configured, and the HMAC
matches. -/
def passesHashCheck (r : VerifyResult) : Prop :=
  r ≠ .err "no_init_data" ∧ r ≠ .err "no_hash" ∧ r ≠ .err "no_bot_token" ∧ r ≠ .err "bad_hash"

/-- `user` has at least a numeric `id` field. -/
def hasNumericId (u : JsonVal) : Bool :=
  match u with
  | .obj fields =>
    fields.any (fun kv =>
      kv.1 == "id" &&
      match kv.2 with
      | .num _ => true
      | _ => false)
  | _ => false

/-! ## FinancialEngine: `calcCommission`, `calcTax`, `calcProfit` -/

/-- `settings.park` of a payload (an object or absent). -/
structure ParkSettings where
  mode : Option JValue := none
  dayFee : Option JValue := none
  orderFee : Option JValue := none
  percent : Option JValue := none
deriving DecidableEq

/-- `payload.settings` (an object or absent). -/
structure Settings where
  park : Option ParkSettings := none
  taxMode : Option JValue := none
deriving DecidableEq

/-- The open shift payload, restricted to the fields the server reads; each
field is a JSON scalar or absent. -/
structure Payload where
  income : Option JValue := none
  tips : Option JValue := none
  otherIncome : Option JValue := none
  orders : Option JValue := none
  rent : Option JValue := none
  fuel : Option JValue := none
  otherExpense : Option JValue := none
  fines : Option JValue := none
  commissionManual : Option JValue := none
  taxManual : Option JValue := none
  settings : Option Settings := none
deriving DecidableEq

/-- `payload ?? {}` target: the empty payload object. -/
def emptyPayload : Payload := {}

/-- The fallback park object `{ mode:'none', dayFee: 0, orderFee: 0, percent: 0 }`. -/
def defaultPark : ParkSettings :=
  { mode := some (.str "none"), dayFee := some (.num 0), orderFee := some (.num 0),
    percent := some (.num 0) }

/-- `park.mode || 'none'` (and `s.taxMode || 'none'`). -/
def jsOrNone (m : Option JValue) : JValue :=
  match m with
  | some v => if jvTruthy v then v else .str "none"
  | none => .str "none"

/-- The server's `calcCommission`. -/
def calcCommission (payload : Payload) : ℚ :=
  let s : Settings := payload.settings.getD {}
  let park : ParkSettings := s.park.getD defaultPark
  let mode : JValue := jsOrNone park.mode
  let hasActivity : Bool :=
    decide (0 < n payload.income) || decide (0 < n payload.orders) ||
      decide (0 < n payload.otherIncome) || decide (0 < n payload.tips)
  if isSet payload.commissionManual then max 0 (jsRound (n payload.commissionManual))
  else if mode = .str "none" then 0
  else if mode = .str "day" then (if hasActivity then n park.dayFee else 0)
  else if mode = .str "order" then n payload.orders * n park.orderFee
  else if mode = .str "percent" then n payload.income * (n park.percent / 100)
  else 0

/-- The server's `calcTax`. -/
def calcTax (payload : Payload) : ℚ :=
  let s : Settings := payload.settings.getD {}
  let mode : JValue := jsOrNone s.taxMode
  if isSet payload.taxManual then max 0 (jsRound (n payload.taxManual))
  else if mode = .str "self4" then n payload.income * 0.04
  else if mode = .str "ip6" then n payload.income * 0.06
  else 0

/-- The record returned by `calcProfit`. -/
structure ProfitParts where
  gross : ℚ
  commission : ℚ
  tax : ℚ
  costs : ℚ
  profit : ℚ
deriving DecidableEq

/-- The server's `calcProfit`. -/
def calcProfit (payload : Payload) : ProfitParts :=
  let gross := n payload.income + n payload.tips + n payload.otherIncome
  let commission := calcCommission payload
  let tax := calcTax payload
  let costs := n payload.rent + n payload.fuel + n payload.otherExpense + n payload.fines
    + commission + tax
  { gross := gross, commission := commission, tax := tax, costs := costs,
    profit := gross - costs }

/-- `settings.park.mode` read as in the spec prose (absent at any level is
`none`). -/
def specParkMode (p : Payload) : Option JValue :=
  (p.settings.bind Settings.park).bind ParkSettings.mode

/-- A `settings.park` numeric field read as in the spec prose. -/
def specParkField (f : ParkSettings → Option JValue) (p : Payload) : Option JValue :=
  (p.settings.bind Settings.park).bind f

/-- `settings.taxMode` read as in the spec prose. -/
def specTaxMode (p : Payload) : Option JValue := p.settings.bind Settings.taxMode

/-- Commission as described by the spec (§4.3): manual override dominates;
otherwise branch on `settings.park.mode` with `none`/`day`/`order`/`percent`
and `0` for any unknown mode. -/
def commissionSpec (p : Payload) : ℚ :=
  if isSet p.commissionManual then max 0 (jsRound (n p.commissionManual))
  else if specParkMode p = some (.str "none") then 0
  else if specParkMode p = some (.str "day") then
    (if 0 < n p.income ∨ (0 < n p.orders ∨ (0 < n p.otherIncome ∨ 0 < n p.tips))
      then n (specParkField ParkSettings.dayFee p) else 0)
  else if specParkMode p = some (.str "order") then
    n p.orders * n (specParkField ParkSettings.orderFee p)
  else if specParkMode p = some (.str "percent") then
    n p.income * (n (specParkField ParkSettings.percent p) / 100)
  else 0

/-- Tax as described by the spec (§4.3). -/
def taxSpec (p : Payload) : ℚ :=
  if isSet p.taxManual then max 0 (jsRound (n p.taxManual))
  else if specTaxMode p = some (.str "self4") then n p.income * 0.04
  else if specTaxMode p = some (.str "ip6") then n p.income * 0.06
  else 0

/-- Profit as described by the spec (§4.3): `gross = income + tips +
otherIncome`, `costs = rent + fuel + otherExpense + fines + commission + tax`,
`profit = gross - costs`. -/
def profitSpec (p : Payload) : ProfitParts :=
  let commission := commissionSpec p
  let tax := taxSpec p
  let gross := n p.income + n p.tips + n p.otherIncome
  let costs := n p.rent + n p.fuel + n p.otherExpense + n p.fines + commission + tax
  { gross := gross, commission := commission, tax := tax, costs := costs,
    profit := gross - costs }

/-- Spec test vector: `park.mode="day", dayFee=500, income=0, orders=0`. -/
def examplePayloadDayIdle : Payload :=
  { income := some (.num 0), orders := some (.num 0),
    settings := some { park := some { mode := some (.str "day"), dayFee := some (.num 500) } } }

/-- Spec test vector: same park settings with `income=100`. -/
def examplePayloadDayActive : Payload :=
  { income := some (.num 100), orders := some (.num 0),
    settings := some { park := some { mode := some (.str "day"), dayFee := some (.num 500) } } }

/-- Spec test vector: `park.mode="percent", percent=20, income=1000`. -/
def examplePayloadPercent : Payload :=
  { income := some (.num 1000),
    settings :=
      some { park := some { mode := some (.str "percent"), percent := some (.num 20) } } }

/-- Spec test vector: `taxMode="self4", income=1000`. -/
def examplePayloadTaxSelf4 : Payload :=
  { income := some (.num 1000), settings := some { taxMode := some (.str "self4") } }

/-- Spec test vector for the profit formula (manual commission 200, tax 40). -/
def examplePayloadProfit : Payload :=
  { income := some (.num 1000), tips := some (.num 50), rent := some (.num 200),
    fuel := some (.num 100), commissionManual := some (.num 200),
    taxManual := some (.num 40) }

/-! ## ShiftLedger: document store, CRUD, bulk upsert -/

/-- One stored Shift document. -/
structure ShiftRow where
  _id : ℕ
  tgId : ℤ
  carId : String
  carName : Option String
  carClass : Option String
  date : String
  payload : Payload
  updatedAt : ℕ
deriving DecidableEq

/-- The Shift collection: rows in insertion order plus a fresh-id counter
modelling the store's id generator. -/
structure Store where
  rows : List ShiftRow
  nextId : ℕ
deriving DecidableEq

/-- JS truthiness of an optional string (absent and `""` are falsy). -/
def strTruthy : Option String → Bool
  | some s => s ≠ ""
  | none => false

/-- Update the first element satisfying `p` with `f`; returns the updated
element (post-update, as `findOneAndUpdate` with `new: true`) and the list. -/
def updateFirst (p : α → Bool) (f : α → α) : List α → Option α × List α
  | [] => (none, [])
  | r :: rs =>
    if p r then (some (f r), f r :: rs)
    else
      let res := updateFirst p f rs
      (res.1, r :: res.2)

/-- Remove the first element satisfying `p`; returns it and the rest. -/
def removeFirst (p : α → Bool) : List α → Option α × List α
  | [] => (none, [])
  | r :: rs =>
    if p r then (some r, rs)
    else
      let res := removeFirst p rs
      (res.1, r :: res.2)

/-- The `findOneAndUpdate` filter `{ tgId, carId, date }`. -/
def tripleMatch (tgId : ℤ) (carId date : String) (r : ShiftRow) : Bool :=
  r.tgId == tgId && r.carId == carId && r.date == date

/-- The `$set` of the upsert: wholesale payload replacement (`payload ?? {}`),
refreshed `updatedAt`, and `carName`/`carClass` only when truthy. -/
def applyShiftSet (payload : Option Payload) (carName carClass : Option String) (now : ℕ)
    (r : ShiftRow) : ShiftRow :=
  { r with
    payload := payload.getD emptyPayload
    updatedAt := now
    carName := if strTruthy carName then carName else r.carName
    carClass := if strTruthy carClass then carClass else r.carClass }

/-- The document inserted by the upsert branch: filter fields plus `$set`
fields, schema defaults (`null`) for an untruthy `carName`/`carClass`. -/
def newShiftRow (id : ℕ) (tgId : ℤ) (carId date : String) (payload : Option Payload)
    (carName carClass : Option String) (now : ℕ) : ShiftRow :=
  { _id := id, tgId := tgId, carId := carId, date := date,
    payload := payload.getD emptyPayload, updatedAt := now,
    carName := if strTruthy carName then carName else none,
    carClass := if strTruthy carClass then carClass else none }

/-- `Shift.findOneAndUpdate({tgId, carId, date}, {$set: …}, {new: true,
upsert: true})`. -/
def shiftUpsert (st : Store) (tgId : ℤ) (carId date : String) (payload : Option Payload)
    (carName carClass : Option String) (now : ℕ) : ShiftRow × Store :=
  match updateFirst (tripleMatch tgId carId date)
      (applyShiftSet payload carName carClass now) st.rows with
  | (some r, rows2) => (r, { st with rows := rows2 })
  | (none, _) =>
    let r := newShiftRow st.nextId tgId carId date payload carName carClass now
    (r, { rows := st.rows ++ [r], nextId := st.nextId + 1 })

/-- `Shift.findOne({ _id: id, tgId })` (owner-scoped read). -/
def getShiftById (st : Store) (tgId : ℤ) (id : ℕ) : Option ShiftRow :=
  st.rows.find? (fun r => r._id == id && r.tgId == tgId)

/-- The `$set` of the owner-scoped `PUT`: payload replaced only when supplied,
`carName`/`carClass` only when truthy, `updatedAt` refreshed. -/
def applyShiftPatch (payload : Option Payload) (carName carClass : Option String) (now : ℕ)
    (r : ShiftRow) : ShiftRow :=
  { r with
    payload := match payload with | some p => p | none => r.payload
    carName := if strTruthy carName then carName else r.carName
    carClass := if strTruthy carClass then carClass else r.carClass
    updatedAt := now }

/-- `Shift.findOneAndUpdate({ _id: id, tgId }, {$set: …}, {new: true})`
(owner-scoped update, no upsert). -/
def updateShiftById (st : Store) (tgId : ℤ) (id : ℕ) (payload : Option Payload)
    (carName carClass : Option String) (now : ℕ) : Option ShiftRow × Store :=
  let res := updateFirst (fun r => r._id == id && r.tgId == tgId)
    (applyShiftPatch payload carName carClass now) st.rows
  (res.1, { st with rows := res.2 })

/-- `Shift.findOneAndDelete({ _id: id, tgId })` (owner-scoped delete). -/
def deleteShiftById (st : Store) (tgId : ℤ) (id : ℕ) : Option ShiftRow × Store :=
  let res := removeFirst (fun r => r._id == id && r.tgId == tgId) st.rows
  (res.1, { st with rows := res.2 })

/-- One item of a bulk-upsert request body (`it || {}` makes a null item the
all-absent record). -/
structure BulkItem where
  carId : Option String := none
  date : Option String := none
  payload : Option Payload := none
  carName : Option String := none
  carClass : Option String := none
deriving DecidableEq

/-- One slot of the bulk `results[]` array. -/
inductive BulkResult where
  | okRes (idx : ℕ) (id : ℕ) (carId date : String) (updatedAt : ℕ)
  | errRes (idx : ℕ) (error : String)
deriving DecidableEq

/-- The per-item validation `!carId || !date`, negated: the item carries a
truthy `carId` and a truthy `date`. -/
def itemValid (it : BulkItem) : Bool := strTruthy it.carId && strTruthy it.date

/-- The per-item loop of `/api/shifts/bulk`; `fail idx` models the store
throwing on that item's `findOneAndUpdate` (caught per item, store
unchanged). -/
def bulkGo (fail : ℕ → Bool) (now : ℕ) (tgId : ℤ) :
    ℕ → Store → List BulkItem → List BulkResult × Store
  | _, st, [] => ([], st)
  | idx, st, it :: rest =>
    if ¬ itemValid it then
      let res := bulkGo fail now tgId (idx + 1) st rest
      (.errRes idx "CAR_ID_AND_DATE_REQUIRED" :: res.1, res.2)
    else if fail idx then
      let res := bulkGo fail now tgId (idx + 1) st rest
      (.errRes idx "UPSERT_FAILED" :: res.1, res.2)
    else
      let up := shiftUpsert st tgId (it.carId.getD "") (it.date.getD "") it.payload
        it.carName it.carClass now
      let res := bulkGo fail now tgId (idx + 1) up.2 rest
      (.okRes idx up.1._id up.1.carId up.1.date up.1.updatedAt :: res.1, res.2)

/-- `/api/shifts/bulk`: rejects an empty `items` with `EMPTY_ITEMS`, otherwise
processes every item independently. -/
def bulkShiftsOp (fail : ℕ → Bool) (now : ℕ) (tgId : ℤ) (items : List BulkItem)
    (st : Store) : Except String (List BulkResult × Store) :=
  if items.isEmpty then .error "EMPTY_ITEMS"
  else .ok (bulkGo fail now tgId 0 st items)

/-! ## Listing and aggregation -/

/-- Non-strict lexicographic order on strings (Mongo `$gte`/`$lte`). -/
def strLe (a b : String) : Bool := Url.strLt a b || a == b

/-- The `GET /api/shifts` Mongo query: owner, optional exact `carId`,
inclusive lexicographic date range, optional strict `updatedAt` lower bound
(ignored when the date string does not parse). -/
def matchesListFilter (tgId : ℤ) (fromD toD carId updatedSince : Option String)
    (dateParse : String → Option ℕ) (r : ShiftRow) : Bool :=
  r.tgId == tgId
  && (if strTruthy carId then r.carId == carId.getD "" else true)
  && (if strTruthy fromD then strLe (fromD.getD "") r.date else true)
  && (if strTruthy toD then strLe r.date (toD.getD "") else true)
  && (match updatedSince with
      | some s =>
        if s ≠ "" then
          match dateParse s with
          | some t => decide (t < r.updatedAt)
          | none => true
        else true
      | none => true)

def insertByDate (x : ShiftRow) : List ShiftRow → List ShiftRow
  | [] => [x]
  | y :: ys => if strLe x.date y.date then x :: y :: ys else y :: insertByDate x ys

/-- `.sort({ date: 1 })`. -/
def sortByDate (rows : List ShiftRow) : List ShiftRow := rows.foldr insertByDate []

/-- `GET /api/shifts` result rows. -/
def listShiftsOp (dateParse : String → Option ℕ) (st : Store) (tgId : ℤ)
    (fromD toD carId updatedSince : Option String) : List ShiftRow :=
  sortByDate (st.rows.filter (matchesListFilter tgId fromD toD carId updatedSince dateParse))

/-- The running `{ days, income, profit, gross }` accumulator. -/
structure Totals where
  days : ℕ
  income : ℚ
  profit : ℚ
  gross : ℚ
deriving DecidableEq

def addRowTotals (t : Totals) (r : ShiftRow) : Totals :=
  { days := t.days + 1,
    income := t.income + n r.payload.income,
    profit := t.profit + (calcProfit r.payload).profit,
    gross := t.gross + (calcProfit r.payload).gross }

def totalsOf (rows : List ShiftRow) : Totals :=
  rows.foldl addRowTotals { days := 0, income := 0, profit := 0, gross := 0 }

/-- `x || null` on an optional string field. -/
def jsStrOrNull (v : Option String) : Option String :=
  match v with
  | some s => if s = "" then none else some s
  | none => none

/-- Per-car accumulator of the user summary (no `lastDate`). -/
structure CarAgg where
  carId : String
  carName : Option String
  carClass : Option String
  days : ℕ
  income : ℚ
  profit : ℚ
  gross : ℚ
deriving DecidableEq

def initCarAgg (r : ShiftRow) : CarAgg :=
  { carId := r.carId, carName := jsStrOrNull r.carName, carClass := jsStrOrNull r.carClass,
    days := 0, income := 0, profit := 0, gross := 0 }

def bumpCarAgg (c : CarAgg) (r : ShiftRow) : CarAgg :=
  { c with
    days := c.days + 1
    income := c.income + n r.payload.income
    profit := c.profit + (calcProfit r.payload).profit
    gross := c.gross + (calcProfit r.payload).gross }

/-- Fold one row into the `cars` object (first-occurrence key order, as JS
object keys). -/
def addRowCars (acc : List CarAgg) (r : ShiftRow) : List CarAgg :=
  if acc.any (fun c => c.carId == r.carId) then
    acc.map (fun c => if c.carId == r.carId then bumpCarAgg c r else c)
  else acc ++ [bumpCarAgg (initCarAgg r) r]

def carsAggOf (rows : List ShiftRow) : List CarAgg := rows.foldl addRowCars []

/-- Per-car accumulator of `GET /api/cars` (with `lastDate`). -/
structure CarsEntry where
  carId : String
  carName : Option String
  carClass : Option String
  lastDate : Option String
  days : ℕ
  income : ℚ
  profit : ℚ
  gross : ℚ
deriving DecidableEq

def initCarsEntry (r : ShiftRow) : CarsEntry :=
  { carId := r.carId, carName := jsStrOrNull r.carName, carClass := jsStrOrNull r.carClass,
    lastDate := none, days := 0, income := 0, profit := 0, gross := 0 }

def bumpCarsEntry (c : CarsEntry) (r : ShiftRow) : CarsEntry :=
  { c with
    days := c.days + 1
    income := c.income + n r.payload.income
    profit := c.profit + (calcProfit r.payload).profit
    gross := c.gross + (calcProfit r.payload).gross
    lastDate :=
      match c.lastDate with
      | none => some r.date
      | some d => if d = "" || Url.strLt d r.date then some r.date else some d }

def addRowCarsEntry (acc : List CarsEntry) (r : ShiftRow) : List CarsEntry :=
  if acc.any (fun c => c.carId == r.carId) then
    acc.map (fun c => if c.carId == r.carId then bumpCarsEntry c r else c)
  else acc ++ [bumpCarsEntry (initCarsEntry r) r]

/-- `GET /api/cars`. -/
def carsOp (st : Store) (tgId : ℤ) : List CarsEntry :=
  (st.rows.filter (fun r => r.tgId == tgId)).foldl addRowCarsEntry []

/-- The `meta` part of `GET /api/cars/:carId/summary` (`rows[0]`-based). -/
structure CarMeta where
  carId : String
  info : Option (Option String × Option String)
deriving DecidableEq

/-- `GET /api/cars/:carId/summary`. -/
def carSummaryOp (st : Store) (tgId : ℤ) (carId : String) (fromD toD : Option String) :
    CarMeta × Totals :=
  let rows := st.rows.filter (fun r =>
    r.tgId == tgId && r.carId == carId
    && (if strTruthy fromD then strLe (fromD.getD "") r.date else true)
    && (if strTruthy toD then strLe r.date (toD.getD "") else true))
  let meta : CarMeta :=
    match rows.head? with
    | some r => { carId := carId, info := some (jsStrOrNull r.carName, jsStrOrNull r.carClass) }
    | none => { carId := carId, info := none }
  (meta, totalsOf rows)

/-- The identity whose rows `GET /api/users/:tgId/summary` aggregates:
`req.params.tgId === 'me' ? check.user.id : req.params.tgId`, then `Number`. -/
def summaryTarget (caller : ℤ) (tgIdParam : String) : JSNum :=
  if tgIdParam = "me" then .num (caller : ℚ) else JsNumber.strToNumber tgIdParam

/-- Mongo equality of a stored (integer) `tgId` against the query number. -/
def rowMatchesTarget (t : JSNum) (r : ShiftRow) : Bool :=
  match t with
  | .num q => decide ((r.tgId : ℚ) = q)
  | _ => false

/-- `GET /api/users/:tgId/summary`: grand total plus per-car breakdown. -/
def userSummaryOp (st : Store) (caller : ℤ) (tgIdParam : String) : Totals × List CarAgg :=
  let rows := st.rows.filter (rowMatchesTarget (summaryTarget caller tgIdParam))
  (totalsOf rows, carsAggOf rows)

/-! ## The authenticated HTTP surface as one dispatcher -/

/-- One authenticated request (the verified caller identity is supplied
separately to `handle`). -/
inductive Request where
  | postShift (carId date : Option String) (payload : Option Payload)
      (carName carClass : Option String)
  | bulkShifts (items : List BulkItem)
  | listShifts (fromD toD carId updatedSince : Option String)
  | getShift (id : ℕ)
  | putShift (id : ℕ) (payload : Option Payload) (carName carClass : Option String)
  | deleteShift (id : ℕ)
  | listCars
  | carSummary (carId : String) (fromD toD : Option String)
  | userSummary (tgIdParam : String)
deriving DecidableEq

/-- The JSON response of each endpoint (success payloads and error codes). -/
inductive Response where
  | err (status : ℕ) (code : String)
  | okRow (row : ShiftRow)
  | okRows (rows : List ShiftRow)
  | okBulk (results : List BulkResult)
  | okDeleted
  | okCars (cars : List CarsEntry)
  | okCarSummary (meta : CarMeta) (total : Totals)
  | okUserSummary (total : Totals) (cars : List CarAgg)
deriving DecidableEq

/-- The identity-scoped endpoints of the server, dispatched on one verified
caller `caller`; `dateParse` models `new Date(...)` and `fail` the per-item
store failures of the bulk path. -/
def handle (dateParse : String → Option ℕ) (fail : ℕ → Bool) (now : ℕ) (caller : ℤ)
    (req : Request) (st : Store) : Response × Store :=
  match req with
  | .postShift carId date payload carName carClass =>
    if ¬ strTruthy carId then (.err 400 "CAR_ID_REQUIRED", st)
    else if ¬ strTruthy date then (.err 400 "DATE_REQUIRED", st)
    else
      let up := shiftUpsert st caller (carId.getD "") (date.getD "") payload
        carName carClass now
      (.okRow up.1, up.2)
  | .bulkShifts items =>
    match bulkShiftsOp fail now caller items st with
    | .error e => (.err 400 e, st)
    | .ok res => (.okBulk res.1, res.2)
  | .listShifts fromD toD carId updatedSince =>
    (.okRows (listShiftsOp dateParse st caller fromD toD carId updatedSince), st)
  | .getShift id =>
    match getShiftById st caller id with
    | none => (.err 404 "NOT_FOUND", st)
    | some r => (.okRow r, st)
  | .putShift id payload carName carClass =>
    let res := updateShiftById st caller id payload carName carClass now
    match res.1 with
    | none => (.err 404 "NOT_FOUND", res.2)
    | some r => (.okRow r, res.2)
  | .deleteShift id =>
    let res := deleteShiftById st caller id
    match res.1 with
    | none => (.err 404 "NOT_FOUND", res.2)
    | some _ => (.okDeleted, res.2)
  | .listCars => (.okCars (carsOp st caller), st)
  | .carSummary carId fromD toD =>
    let res := carSummaryOp st caller carId fromD toD
    (.okCarSummary res.1 res.2, st)
  | .userSummary p =>
    let res := userSummaryOp st caller p
    (.okUserSummary res.1 res.2, st)

/-- Rows owned by a given identity. -/
def ownPred (owner : ℤ) (r : ShiftRow) : Bool := r.tgId == owner

/-- Two stores that differ only in the rows owned by `A` (and agree on the
id generator). -/
def agreeExceptOwner (A : ℤ) (s1 s2 : Store) : Prop :=
  s1.rows.filter (fun r => r.tgId != A) = s2.rows.filter (fun r => r.tgId != A)
  ∧ s1.nextId = s2.nextId

/-- Two stores that agree on the rows owned by `owner` (and on the id
generator). -/
def agreeOnOwner (owner : ℤ) (s1 s2 : Store) : Prop :=
  s1.rows.filter (ownPred owner) = s2.rows.filter (ownPred owner)
  ∧ s1.nextId = s2.nextId

/-- The request is not a user-summary resolving to the identity `A`: any
user-summary in it has a `:tgId` parameter whose resolution (`'me'` maps to
the caller, anything else goes through JS `Number`) is not `A`'s id.  This
covers `me`, the caller's own id, any third identity, and non-numeric
parameters (which resolve to `NaN` and match no rows). -/
def summaryNotTargeting (A caller : ℤ) (req : Request) : Prop :=
  ∀ p, req = .userSummary p → summaryTarget caller p ≠ .num ((A : ℤ) : ℚ)

/-! ## Theorems: InitDataVerifier claims (C3, C4) -/

/-- Helper: concrete evaluation of a verification that passes every check,
with a `user` field carrying no numeric id (`user=7`). -/
theorem verify_good_eval :
    verifyInitData (fun _ _ => "aa") jsonParse0 "t" 1000 "hash=aa&auth_date=700&user=7" =
      .ok (.num 7) [("auth_date", "700"), ("user", "7")] := by
  have h700 : JsNumber.strToNumber "700" = .num 700 := by
    norm_num +decide [JsNumber.strToNumber, JsNumber.parseNumeric,
      JsNumber.parseNumeric.signedDec, JsNumber.parseUnsignedDec, JsNumber.spanDigits,
      JsNumber.digitsVal, JsNumber.fracVal, JsNumber.parseExponent, JsNumber.isJsWs,
      JsNumber.isDigit, JsNumber.digitVal]
  have hnh : nonHashEntries "hash=aa&auth_date=700&user=7" =
      [("auth_date", "700"), ("user", "7")] := rfl
  have had : authDateNum [("auth_date", "700"), ("user", "7")] = .num 700 := by
    have hl : Url.lookupFirst "auth_date" [("auth_date", "700"), ("user", "7")] =
        some "700" := rfl
    simp only [authDateNum, hl, h700]
    decide
  have hsc : staleCond 1000 (JSNum.num 700) = false := by
    norm_num [staleCond, authFalsy, staleGt]
    decide
  have hjp : jsonParse0 "7" = some (.num 7) := by
    norm_num +decide [jsonParse0, Json.parseValue, Json.parseJsonNumber, Json.skipWs,
      JsNumber.spanDigits, JsNumber.digitsVal, JsNumber.isDigit, JsNumber.digitVal]
  have hpp : Url.lookupFirst "hash" (Url.parseParams "hash=aa&auth_date=700&user=7") =
      some "aa" := rfl
  have hse : Url.sortEntries [("auth_date", "700"), ("user", "7")] =
      [("auth_date", "700"), ("user", "7")] := rfl
  have hfe : Url.fromEntries [("auth_date", "700"), ("user", "7")] =
      [("auth_date", "700"), ("user", "7")] := rfl
  have hua : userArg [("auth_date", "700"), ("user", "7")] = "7" := rfl
  simp [verifyInitData, hpp, hnh, hse, hfe, hua, had, hsc, hjp]

/-- Helper: concrete evaluation at a launch-data string with no `user` field —
`JSON.parse` receives the coerced string `"null"` and succeeds with `null`. -/
theorem verify_nouser_eval :
    verifyInitData (fun _ _ => "aa") jsonParse0 "t" 1000 "hash=aa&auth_date=700" =
      .ok .null [("auth_date", "700")] := by
  have h700 : JsNumber.strToNumber "700" = .num 700 := by
    norm_num +decide [JsNumber.strToNumber, JsNumber.parseNumeric,
      JsNumber.parseNumeric.signedDec, JsNumber.parseUnsignedDec, JsNumber.spanDigits,
      JsNumber.digitsVal, JsNumber.fracVal, JsNumber.parseExponent, JsNumber.isJsWs,
      JsNumber.isDigit, JsNumber.digitVal]
  have hnh : nonHashEntries "hash=aa&auth_date=700" = [("auth_date", "700")] := rfl
  have had : authDateNum [("auth_date", "700")] = .num 700 := by
    have hl : Url.lookupFirst "auth_date" [("auth_date", "700")] = some "700" := rfl
    simp only [authDateNum, hl, h700]
    decide
  have hsc : staleCond 1000 (JSNum.num 700) = false := by
    norm_num [staleCond, authFalsy, staleGt]
    decide
  have hjp : jsonParse0 "null" = some .null := rfl
  have hpp : Url.lookupFirst "hash" (Url.parseParams "hash=aa&auth_date=700") =
      some "aa" := rfl
  have hse : Url.sortEntries [("auth_date", "700")] = [("auth_date", "700")] := rfl
  have hfe : Url.fromEntries [("auth_date", "700")] = [("auth_date", "700")] := rfl
  have hua : userArg [("auth_date", "700")] = "null" := rfl
  simp [verifyInitData, hpp, hnh, hse, hfe, hua, had, hsc, hjp]

/-- Helper: concrete evaluation at a launch-data string whose `auth_date` lies
301 seconds in the future — the freshness check passes and verification
succeeds. -/
theorem verify_future_eval :
    verifyInitData (fun _ _ => "aa") jsonParse0 "t" 1000 "hash=aa&auth_date=1301" =
      .ok .null [("auth_date", "1301")] := by
  have h1301 : JsNumber.strToNumber "1301" = .num 1301 := by
    norm_num +decide [JsNumber.strToNumber, JsNumber.parseNumeric,
      JsNumber.parseNumeric.signedDec, JsNumber.parseUnsignedDec, JsNumber.spanDigits,
      JsNumber.digitsVal, JsNumber.fracVal, JsNumber.parseExponent, JsNumber.isJsWs,
      JsNumber.isDigit, JsNumber.digitVal]
  have hnh : nonHashEntries "hash=aa&auth_date=1301" = [("auth_date", "1301")] := rfl
  have had : authDateNum [("auth_date", "1301")] = .num 1301 := by
    have hl : Url.lookupFirst "auth_date" [("auth_date", "1301")] = some "1301" := rfl
    simp only [authDateNum, hl, h1301]
    decide
  have hsc : staleCond 1000 (JSNum.num 1301) = false := by
    norm_num [staleCond, authFalsy, staleGt]
    decide
  have hjp : jsonParse0 "null" = some .null := rfl
  have hpp : Url.lookupFirst "hash" (Url.parseParams "hash=aa&auth_date=1301") =
      some "aa" := rfl
  have hse : Url.sortEntries [("auth_date", "1301")] = [("auth_date", "1301")] := rfl
  have hfe : Url.fromEntries [("auth_date", "1301")] = [("auth_date", "1301")] := rfl
  have hua : userArg [("auth_date", "1301")] = "null" := rfl
  simp [verifyInitData, hpp, hnh, hse, hfe, hua, had, hsc, hjp]

/-- C3 (counterexample): the claim asserts that an `auth_date` with "negative
skew beyond the 5-minute window (auth_date in the future beyond the window)"
is rejected.  At `now = 1000` a hash-passing launch-data string with
`auth_date = 1301` (301 seconds in the future, beyond the window) is accepted
by `verifyInitData`, not rejected. -/
theorem C3_counterexample :
    verifyInitData (fun _ _ => "aa") jsonParse0 "t" 1000 "hash=aa&auth_date=1301" =
      .ok .null [("auth_date", "1301")] ∧ (1301 : ℤ) - 1000 > 300 :=
  ⟨verify_future_eval, by decide⟩

/-- C3 (amended): for every launch-data string that passes the hash check,
verification fails with `stale_auth` exactly when the parsed `auth_date` is
JS-falsy (missing, empty, zero, or non-numeric, i.e. `NaN`) or
`now - auth_date > 300` under JS arithmetic.  Consequently `auth_date =
now - 300` passes and `auth_date = now - 301` fails, but future `auth_date`
values (negative skew) pass the freshness check — they are not rejected. -/
theorem C3_freshness_amended (hmac : String → String → String)
    (jsonParse : String → Option JsonVal) (botToken : String) (now : ℤ) (raw : String)
    (h : passesHashCheck (verifyInitData hmac jsonParse botToken now raw)) :
    (verifyInitData hmac jsonParse botToken now raw = .err "stale_auth"
      ↔ staleCond now (authDateNum (nonHashEntries raw)) = true) := by
  obtain ⟨h1, h2, h3, h4⟩ := h
  by_cases hr : raw = ""
  · exact absurd (by simp [verifyInitData, hr]) h1
  · rcases hhl : Url.lookupFirst "hash" (Url.parseParams raw) with _ | hv
    · exact absurd (by simp [verifyInitData, hr, hhl]) h2
    · by_cases hhe : hv = ""
      · exact absurd (by simp [verifyInitData, hr, hhl, hhe]) h2
      · by_cases hbt : botToken = ""
        · exact absurd (by simp [verifyInitData, hr, hhl, hhe, hbt]) h3
        · by_cases hbh : hmac botToken (Url.joinEntries (Url.sortEntries (nonHashEntries raw))) = hv
          · by_cases hsc : staleCond now (authDateNum (nonHashEntries raw)) = true
            · simp [verifyInitData, hr, hhl, hhe, hbt, hbh, hsc]
            · rcases hjp : jsonParse (userArg (nonHashEntries raw)) with _ | u
              · simp [verifyInitData, hr, hhl, hhe, hbt, hbh, hsc, hjp]
              · simp [verifyInitData, hr, hhl, hhe, hbt, hbh, hsc, hjp]
          · exact absurd (by simp [verifyInitData, hr, hhl, hhe, hbt, hbh]) h4

/-- C3 (witness): at a concrete hash-passing launch-data string with no
`auth_date`, the amended characterization holds: the parsed `auth_date` is `0`
(falsy), and verification indeed fails with `stale_auth`. -/
theorem C3_witness :
    (verifyInitData (fun _ _ => "aa") jsonParse0 "t" 1000 "hash=aa" = .err "stale_auth"
      ↔ staleCond 1000 (authDateNum (nonHashEntries "hash=aa")) = true) := by
  have h : verifyInitData (fun _ _ => "aa") jsonParse0 "t" 1000 "hash=aa" =
      .err "stale_auth" := rfl
  exact C3_freshness_amended _ _ _ _ _
    ⟨by rw [h]; simp, by rw [h]; simp, by rw [h]; simp, by rw [h]; simp⟩

/-- C4 (counterexample): the claim asserts that whenever verification
succeeds the decoded user carries at least a numeric `id`, so a missing
`user` field never yields success.  At a hash-passing, fresh launch-data
string with no `user` field, `JSON.parse` receives the string `"null"`
(the stringified JS `null`), parses it successfully, and `verifyInitData`
returns `ok` with `user = null` — which has no numeric `id`. -/
theorem C4_counterexample :
    verifyInitData (fun _ _ => "aa") jsonParse0 "t" 1000 "hash=aa&auth_date=700" =
      .ok .null [("auth_date", "700")] ∧ hasNumericId .null = false :=
  ⟨verify_nouser_eval, rfl⟩

/-- C4 (amended): for every launch-data string that passes the hash check and
the freshness check, verification fails with `bad_user_json` exactly when the
JSON parser fails on the `user` field (a missing field being passed as the
string `"null"`), and on any successful parse it returns `ok` with exactly the
parsed value — no numeric-`id` requirement is enforced. -/
theorem C4_user_json_amended (hmac : String → String → String)
    (jsonParse : String → Option JsonVal) (botToken : String) (now : ℤ) (raw : String)
    (h : passesHashCheck (verifyInitData hmac jsonParse botToken now raw))
    (hfresh : staleCond now (authDateNum (nonHashEntries raw)) = false) :
    (verifyInitData hmac jsonParse botToken now raw = .err "bad_user_json"
      ↔ jsonParse (userArg (nonHashEntries raw)) = none)
    ∧ (∀ u, jsonParse (userArg (nonHashEntries raw)) = some u →
        verifyInitData hmac jsonParse botToken now raw =
          .ok u (Url.fromEntries (Url.sortEntries (nonHashEntries raw)))) := by
  obtain ⟨h1, h2, h3, h4⟩ := h
  by_cases hr : raw = ""
  · exact absurd (by simp [verifyInitData, hr]) h1
  · rcases hhl : Url.lookupFirst "hash" (Url.parseParams raw) with _ | hv
    · exact absurd (by simp [verifyInitData, hr, hhl]) h2
    · by_cases hhe : hv = ""
      · exact absurd (by simp [verifyInitData, hr, hhl, hhe]) h2
      · by_cases hbt : botToken = ""
        · exact absurd (by simp [verifyInitData, hr, hhl, hhe, hbt]) h3
        · by_cases hbh : hmac botToken (Url.joinEntries (Url.sortEntries (nonHashEntries raw))) = hv
          · rcases hjp : jsonParse (userArg (nonHashEntries raw)) with _ | u
            · simp [verifyInitData, hr, hhl, hhe, hbt, hbh, hfresh, hjp]
            · simp [verifyInitData, hr, hhl, hhe, hbt, hbh, hfresh, hjp]
          · exact absurd (by simp [verifyInitData, hr, hhl, hhe, hbt, hbh]) h4

/-- C4 (witness): the amended characterization applied at a concrete
hash-passing, fresh launch-data string whose `user` field is the JSON `7`:
verification succeeds with exactly the parsed user. -/
theorem C4_witness :
    (verifyInitData (fun _ _ => "aa") jsonParse0 "t" 1000 "hash=aa&auth_date=700&user=7" =
        .err "bad_user_json"
      ↔ jsonParse0 (userArg (nonHashEntries "hash=aa&auth_date=700&user=7")) = none)
    ∧ (∀ u, jsonParse0 (userArg (nonHashEntries "hash=aa&auth_date=700&user=7")) = some u →
        verifyInitData (fun _ _ => "aa") jsonParse0 "t" 1000 "hash=aa&auth_date=700&user=7" =
          .ok u (Url.fromEntries (Url.sortEntries
            (nonHashEntries "hash=aa&auth_date=700&user=7")))) := by
  have h : verifyInitData (fun _ _ => "aa") jsonParse0 "t" 1000
      "hash=aa&auth_date=700&user=7" = .ok (.num 7) [("auth_date", "700"), ("user", "7")] :=
    verify_good_eval
  have hfresh : staleCond 1000 (authDateNum
      (nonHashEntries "hash=aa&auth_date=700&user=7")) = false := by
    have h700 : JsNumber.strToNumber "700" = .num 700 := by
      norm_num +decide [JsNumber.strToNumber, JsNumber.parseNumeric,
        JsNumber.parseNumeric.signedDec, JsNumber.parseUnsignedDec, JsNumber.spanDigits,
        JsNumber.digitsVal, JsNumber.fracVal, JsNumber.parseExponent, JsNumber.isJsWs,
        JsNumber.isDigit, JsNumber.digitVal]
    have hl : Url.lookupFirst "auth_date"
        (nonHashEntries "hash=aa&auth_date=700&user=7") = some "700" := rfl
    have had : authDateNum (nonHashEntries "hash=aa&auth_date=700&user=7") = .num 700 := by
      simp only [authDateNum, hl, h700]
      decide
    rw [had]
    norm_num [staleCond, authFalsy, staleGt]
    decide
  exact C4_user_json_amended _ _ _ _ _
    ⟨by rw [h]; simp, by rw [h]; simp, by rw [h]; simp, by rw [h]; simp⟩ hfresh

/-! ## Theorems: FinancialEngine claims (C6, C7, C8, C10) -/

/-- Helper: the server's commission computation coincides with the spec's
description for every payload. -/
theorem commission_eq_spec (p : Payload) : calcCommission p = commissionSpec p := by
  obtain ⟨inc, tip, oi, ord, rent, fuel, oe, fin, cm, tm, st⟩ := p
  by_cases hcm : isSet cm = true
  · simp [calcCommission, commissionSpec, hcm]
  · rcases st with _ | ⟨park, taxMode⟩
    · simp [calcCommission, commissionSpec, specParkMode, specParkField, defaultPark,
        jsOrNone, jvTruthy, hcm]
    · rcases park with _ | ⟨mode, dayFee, orderFee, percent⟩
      · simp [calcCommission, commissionSpec, specParkMode, specParkField, defaultPark,
          jsOrNone, jvTruthy, hcm]
      · rcases mode with _ | mv
        · simp [calcCommission, commissionSpec, specParkMode, specParkField, jsOrNone,
            jvTruthy, hcm]
        · rcases mv with q | s2 | b | _
          · by_cases hq : q = 0 <;>
              simp [calcCommission, commissionSpec, specParkMode, specParkField, jsOrNone,
                jvTruthy, hcm, hq]
          · by_cases h0 : s2 = "" <;>
              simp [calcCommission, commissionSpec, specParkMode, specParkField, jsOrNone,
                jvTruthy, hcm, h0, or_assoc]
          · cases b <;>
              simp [calcCommission, commissionSpec, specParkMode, specParkField, jsOrNone,
                jvTruthy, hcm]
          · simp [calcCommission, commissionSpec, specParkMode, specParkField, jsOrNone,
              jvTruthy, hcm]

/-- Helper: the server's tax computation coincides with the spec's description
for every payload. -/
theorem tax_eq_spec (p : Payload) : calcTax p = taxSpec p := by
  obtain ⟨inc, tip, oi, ord, rent, fuel, oe, fin, cm, tm, st⟩ := p
  by_cases htm : isSet tm = true
  · simp [calcTax, taxSpec, htm]
  · rcases st with _ | ⟨park, taxMode⟩
    · simp [calcTax, taxSpec, specTaxMode, jsOrNone, jvTruthy, htm]
    · rcases taxMode with _ | mv
      · simp [calcTax, taxSpec, specTaxMode, jsOrNone, jvTruthy, htm]
      · rcases mv with q | s2 | b | _
        · by_cases hq : q = 0 <;>
            simp [calcTax, taxSpec, specTaxMode, jsOrNone, jvTruthy, htm, hq]
        · by_cases h0 : s2 = "" <;>
            simp [calcTax, taxSpec, specTaxMode, jsOrNone, jvTruthy, htm, h0]
        · cases b <;> simp [calcTax, taxSpec, specTaxMode, jsOrNone, jvTruthy, htm]
        · simp [calcTax, taxSpec, specTaxMode, jsOrNone, jvTruthy, htm]

/-- C6: for every payload, a set `commissionManual` dominates and yields
`max(0, round(commissionManual))`; otherwise commission follows
`settings.park.mode` (`none` → 0, `day` → `dayFee` iff any of income, orders,
otherIncome, tips is positive, `order` → `orders * orderFee`, `percent` →
`income * percent / 100`, unknown → 0) — stated as pointwise agreement of the
server's `calcCommission` with the spec-transcribed `commissionSpec`, plus the
spec's concrete mode vectors. -/
theorem C6_commission_thm :
    (∀ p : Payload, calcCommission p = commissionSpec p)
    ∧ calcCommission examplePayloadDayIdle = 0
    ∧ calcCommission examplePayloadDayActive = 500
    ∧ calcCommission examplePayloadPercent = 200 := by
  refine ⟨commission_eq_spec, ?_, ?_, ?_⟩
  · norm_num +decide [calcCommission, examplePayloadDayIdle, n, toNumber, jsOrNone,
      jvTruthy, isSet, defaultPark]
  · norm_num +decide [calcCommission, examplePayloadDayActive, n, toNumber, jsOrNone,
      jvTruthy, isSet, defaultPark]
  · norm_num +decide [calcCommission, examplePayloadPercent, n, toNumber, jsOrNone,
      jvTruthy, isSet, defaultPark]

/-- C7: for every payload, a set `taxManual` yields
`max(0, round(taxManual))` (so `15.6` rounds to `16` and negative manual
values clamp to `0`); otherwise tax is `income * 0.04` for `self4`,
`income * 0.06` for `ip6`, and `0` for anything else — stated as pointwise
agreement of the server's `calcTax` with the spec-transcribed `taxSpec`, plus
the spec's concrete vectors. -/
theorem C7_tax_thm :
    (∀ p : Payload, calcTax p = taxSpec p)
    ∧ calcTax examplePayloadTaxSelf4 = 40
    ∧ calcTax { taxManual := some (.num 15.6) } = 16
    ∧ calcTax { taxManual := some (.num (-5)) } = 0 := by
  refine ⟨tax_eq_spec, ?_, ?_, ?_⟩
  · norm_num +decide [calcTax, examplePayloadTaxSelf4, n, toNumber, jsOrNone, jvTruthy,
      isSet]
  · norm_num +decide [calcTax, n, toNumber, jsOrNone, jvTruthy, isSet, jsRound]
  · norm_num +decide [calcTax, n, toNumber, jsOrNone, jvTruthy, isSet, jsRound]

/-- Helper: the server's profit computation coincides with the spec's formula
for every payload. -/
theorem profit_eq_spec (p : Payload) : calcProfit p = profitSpec p := by
  simp [calcProfit, profitSpec, commission_eq_spec, tax_eq_spec]

/-- C8: for every payload — malformed ones included — `calcProfit` returns
`{gross, commission, tax, costs, profit}` with `gross = income + tips +
otherIncome`, `costs = rent + fuel + otherExpense + fines + commission + tax`,
`profit = gross - costs`, every missing or non-finite numeric input coerced to
`0`; the function is total by construction (it never throws).  Stated as
pointwise agreement with the spec-transcribed `profitSpec`, plus the spec's
profit vector and the `income="abc"` resilience vector. -/
theorem C8_profit_thm :
    (∀ p : Payload, calcProfit p = profitSpec p)
    ∧ calcProfit examplePayloadProfit =
        { gross := 1050, commission := 200, tax := 40, costs := 540, profit := 510 }
    ∧ calcProfit { income := some (.str "abc") } =
        { gross := 0, commission := 0, tax := 0, costs := 0, profit := 0 } := by
  refine ⟨profit_eq_spec, ?_, ?_⟩
  · norm_num +decide [calcProfit, calcCommission, calcTax, examplePayloadProfit, n,
      toNumber, jsOrNone, jvTruthy, isSet, defaultPark, jsRound]
  · have habc : n (some (.str "abc")) = 0 := rfl
    norm_num +decide [calcProfit, calcCommission, calcTax, habc, jsOrNone, jvTruthy,
      isSet, defaultPark, n, toNumber]

/-- C10: the numeric coercion `n` used by the financial functions is JS
`Number` conversion with a finiteness guard: any value whose conversion is a
finite number contributes exactly that number (so the numeric string `"100"`
counts as `100`, `true` counts as `1`, the empty string counts as `0`), and
only values whose conversion is `NaN` or an infinity are coerced to `0`. -/
theorem C10_coercion_thm :
    (∀ (v : Option JValue) (q : ℚ), toNumber v = .num q → n v = q)
    ∧ (∀ v : Option JValue,
        toNumber v = .nan ∨ toNumber v = .posInf ∨ toNumber v = .negInf → n v = 0)
    ∧ n (some (.str "100")) = 100
    ∧ n (some (.bool true)) = 1
    ∧ n (some (.str "")) = 0
    ∧ n (some (.str "abc")) = 0 := by
  refine ⟨?_, ?_, ?_, rfl, rfl, rfl⟩
  · intro v q h
    simp [n, h]
  · intro v h
    rcases h with h | h | h <;> simp [n, h]
  · norm_num +decide [n, toNumber, strToNumber, parseNumeric, parseNumeric.signedDec,
      parseUnsignedDec, spanDigits, digitsVal, fracVal, parseExponent, isJsWs, isDigit,
      digitVal]

/-- C10 (witness): the coercion theorem applied at the concrete hex string
`"0x10"`, whose JS `Number` conversion is the finite value `16`. -/
theorem C10_witness : n (some (.str "0x10")) = 16 :=
  C10_coercion_thm.1 (some (.str "0x10")) 16 (by decide)

/-! ## Theorems: ShiftLedger claims (C2, C5, C9) -/

/-- Helper: `updateFirst` is the identity when nothing matches. -/
theorem updateFirst_none {α : Type} (p : α → Bool) (f : α → α) (l : List α)
    (h : ∀ r ∈ l, p r = false) : updateFirst p f l = (none, l) := by
  induction l with
  | nil => rfl
  | cons x xs ih =>
    have hx := h x (List.mem_cons_self x xs)
    simp [updateFirst, hx, ih (fun r hr => h r (List.mem_cons_of_mem _ hr))]

/-- Helper: `removeFirst` is the identity when nothing matches. -/
theorem removeFirst_none {α : Type} (p : α → Bool) (l : List α)
    (h : ∀ r ∈ l, p r = false) : removeFirst p l = (none, l) := by
  induction l with
  | nil => rfl
  | cons x xs ih =>
    have hx := h x (List.mem_cons_self x xs)
    simp [removeFirst, hx, ih (fun r hr => h r (List.mem_cons_of_mem _ hr))]

/-- C2: for an authenticated identity `B` and a Shift id whose stored rows all
belong to a different identity `A`, each of the owner-scoped GET, PUT and
DELETE returns exactly the `404 NOT_FOUND` response and leaves the store
(including the non-owned row) unchanged; and the response is literally the
same as on any store holding no row with that id at all. -/
theorem C2_owner_scoped_thm (dateParse : String → Option ℕ) (fail : ℕ → Bool) (now : ℕ)
    (st : Store) (A B : ℤ) (id : ℕ) (payload : Option Payload)
    (carName carClass : Option String)
    (_howned : ∃ r ∈ st.rows, r._id = id ∧ r.tgId = A)
    (honly : ∀ r ∈ st.rows, r._id = id → r.tgId = A)
    (hAB : A ≠ B) :
    handle dateParse fail now B (.getShift id) st = (.err 404 "NOT_FOUND", st)
    ∧ handle dateParse fail now B (.putShift id payload carName carClass) st =
        (.err 404 "NOT_FOUND", st)
    ∧ handle dateParse fail now B (.deleteShift id) st = (.err 404 "NOT_FOUND", st)
    ∧ ∀ st2 : Store, (∀ r ∈ st2.rows, r._id ≠ id) →
        (handle dateParse fail now B (.getShift id) st2).1 = .err 404 "NOT_FOUND"
        ∧ (handle dateParse fail now B (.putShift id payload carName carClass) st2).1 =
            .err 404 "NOT_FOUND"
        ∧ (handle dateParse fail now B (.deleteShift id) st2).1 = .err 404 "NOT_FOUND" := by
  have hpred : ∀ r ∈ st.rows, (r._id == id && r.tgId == B) = false := by
    intro r hr
    by_cases hid : r._id = id
    · have hA := honly r hr hid
      simp [hid, hA, hAB]
    · simp [hid]
  have hget : getShiftById st B id = none := by
    simp only [getShiftById]
    exact List.find?_eq_none.mpr (fun x hx => by simp [hpred x hx])
  have hupd : updateFirst (fun r => r._id == id && r.tgId == B)
      (applyShiftPatch payload carName carClass now) st.rows = (none, st.rows) :=
    updateFirst_none _ _ _ hpred
  have hdel : removeFirst (fun r => r._id == id && r.tgId == B) st.rows = (none, st.rows) :=
    removeFirst_none _ _ hpred
  refine ⟨?_, ?_, ?_, ?_⟩
  · simp [handle, hget]
  · simp [handle, updateShiftById, hupd]
  · simp [handle, deleteShiftById, hdel]
  · intro st2 hno
    have hpred2 : ∀ r ∈ st2.rows, (r._id == id && r.tgId == B) = false := by
      intro r hr
      simp [hno r hr]
    have hget2 : getShiftById st2 B id = none := by
      simp only [getShiftById]
      exact List.find?_eq_none.mpr (fun x hx => by simp [hpred2 x hx])
    have hupd2 : updateFirst (fun r => r._id == id && r.tgId == B)
        (applyShiftPatch payload carName carClass now) st2.rows = (none, st2.rows) :=
      updateFirst_none _ _ _ hpred2
    have hdel2 : removeFirst (fun r => r._id == id && r.tgId == B) st2.rows =
        (none, st2.rows) :=
      removeFirst_none _ _ hpred2
    exact ⟨by simp [handle, hget2], by simp [handle, updateShiftById, hupd2],
      by simp [handle, deleteShiftById, hdel2]⟩

/-- C2 (witness): the theorem applied at a one-row store owned by identity 1,
accessed by identity 2. -/
theorem C2_witness :
    handle (fun _ => none) (fun _ => false) 7 2 (.getShift 5)
        ⟨[⟨5, 1, "c", none, none, "2024-01-01", emptyPayload, 0⟩], 6⟩ =
      (.err 404 "NOT_FOUND", ⟨[⟨5, 1, "c", none, none, "2024-01-01", emptyPayload, 0⟩], 6⟩) :=
  (C2_owner_scoped_thm (fun _ => none) (fun _ => false) 7
    ⟨[⟨5, 1, "c", none, none, "2024-01-01", emptyPayload, 0⟩], 6⟩
    1 2 5 none none none
    ⟨⟨5, 1, "c", none, none, "2024-01-01", emptyPayload, 0⟩, by simp, rfl, rfl⟩
    (by
      intro r hr _
      rw [List.mem_singleton] at hr
      subst hr
      rfl)
    (by decide)).1

/-- Helper: `updateFirst` updates exactly the first `find?`-match. -/
theorem updateFirst_fst {α : Type} (p : α → Bool) (f : α → α) (l : List α) (r0 : α)
    (h : l.find? p = some r0) : (updateFirst p f l).1 = some (f r0) := by
  induction l with
  | nil => simp [List.find?] at h
  | cons x xs ih =>
    by_cases hx : p x = true
    · rw [List.find?_cons_of_pos _ hx] at h
      injection h with h
      subst h
      simp [updateFirst, hx]
    · rw [List.find?_cons_of_neg _ (by simp [hx])] at h
      simp [updateFirst, hx, ih h]

/-- Helper: `updateFirst` leaves the list untouched when `find?` misses. -/
theorem updateFirst_of_find?_none {α : Type} (p : α → Bool) (f : α → α) (l : List α)
    (h : l.find? p = none) : updateFirst p f l = (none, l) :=
  updateFirst_none p f l (by
    intro r hr
    rcases List.find?_eq_none.mp h r hr with hmem
    simpa using hmem)

/-- Helper: `updateFirst` preserves the match count when `f` preserves `p`. -/
theorem updateFirst_countP {α : Type} (p : α → Bool) (f : α → α) (l : List α)
    (hpf : ∀ r, p r = true → p (f r) = true) :
    ((updateFirst p f l).2).countP p = l.countP p := by
  induction l with
  | nil => rfl
  | cons x xs ih =>
    by_cases hx : p x = true
    · simp [updateFirst, hx, List.countP_cons, hpf x hx]
    · simp [updateFirst, hx, List.countP_cons, ih]

/-- Helper: after updating the first match, `find?` returns the updated row. -/
theorem updateFirst_find?_self {α : Type} (p : α → Bool) (f : α → α) (l : List α) (r0 : α)
    (h : l.find? p = some r0) (hpf : ∀ r, p r = true → p (f r) = true) :
    ((updateFirst p f l).2).find? p = some (f r0) := by
  induction l with
  | nil => simp [List.find?] at h
  | cons x xs ih =>
    by_cases hx : p x = true
    · rw [List.find?_cons_of_pos _ hx] at h
      injection h with h
      subst h
      simp [updateFirst, hx, List.find?_cons_of_pos _ (hpf x hx)]
    · rw [List.find?_cons_of_neg _ (by simp [hx])] at h
      simp only [updateFirst, hx, if_false, Bool.false_eq_true]
      rw [List.find?_cons_of_neg _ (by simp [hx])]
      exact ih h

/-- Helper: `find?` over an appended singleton when the prefix misses. -/
theorem find?_append_singleton {α : Type} (p : α → Bool) (l : List α) (a : α)
    (h : l.find? p = none) (ha : p a = true) : (l ++ [a]).find? p = some a := by
  induction l with
  | nil => simp [List.find?, ha]
  | cons x xs ih =>
    by_cases hx : p x = true
    · rw [List.find?_cons_of_pos _ hx] at h
      exact absurd h (by simp)
    · rw [List.find?_cons_of_neg _ (by simp [hx])] at h
      simp only [List.cons_append]
      rw [List.find?_cons_of_neg _ (by simp [hx])]
      exact ih h

/-- Helper: the `$set` of the upsert keeps the `(tgId, carId, date)` key. -/
theorem applyShiftSet_keeps_triple (tgId : ℤ) (carId date : String)
    (payload : Option Payload) (carName carClass : Option String) (now : ℕ) (r : ShiftRow) :
    tripleMatch tgId carId date (applyShiftSet payload carName carClass now r) =
      tripleMatch tgId carId date r := by
  simp [tripleMatch, applyShiftSet]

/-- Helper: the inserted document matches the upsert filter. -/
theorem newShiftRow_triple (id : ℕ) (tgId : ℤ) (carId date : String)
    (payload : Option Payload) (carName carClass : Option String) (now : ℕ) :
    tripleMatch tgId carId date (newShiftRow id tgId carId date payload carName carClass now)
      = true := by
  simp [tripleMatch, newShiftRow]

/-- Helper: one upsert on a store with at most one row for the key leaves
exactly one row for the key, retrievable as the returned row; it is the
`$set`-update of the previous match when one existed, the fresh insert
otherwise. -/
theorem shiftUpsert_spec (st : Store) (tgId : ℤ) (carId date : String)
    (payload : Option Payload) (carName carClass : Option String) (now : ℕ)
    (huniq : st.rows.countP (tripleMatch tgId carId date) ≤ 1) :
    (shiftUpsert st tgId carId date payload carName carClass now).2.rows.countP
        (tripleMatch tgId carId date) = 1
    ∧ (shiftUpsert st tgId carId date payload carName carClass now).2.rows.find?
        (tripleMatch tgId carId date) =
        some (shiftUpsert st tgId carId date payload carName carClass now).1
    ∧ (∀ r0, st.rows.find? (tripleMatch tgId carId date) = some r0 →
        (shiftUpsert st tgId carId date payload carName carClass now).1 =
          applyShiftSet payload carName carClass now r0)
    ∧ (st.rows.find? (tripleMatch tgId carId date) = none →
        (shiftUpsert st tgId carId date payload carName carClass now).1 =
          newShiftRow st.nextId tgId carId date payload carName carClass now) := by
  have hpf : ∀ r, tripleMatch tgId carId date r = true →
      tripleMatch tgId carId date (applyShiftSet payload carName carClass now r) = true := by
    intro r hr
    rw [applyShiftSet_keeps_triple]
    exact hr
  rcases hf : st.rows.find? (tripleMatch tgId carId date) with _ | r0
  · -- no existing row: insert branch
    have hu := updateFirst_of_find?_none (tripleMatch tgId carId date)
      (applyShiftSet payload carName carClass now) st.rows hf
    have hcnt0 : st.rows.countP (tripleMatch tgId carId date) = 0 := by
      rw [List.countP_eq_zero]
      intro r hr
      have := List.find?_eq_none.mp hf r hr
      simpa using this
    have hres : shiftUpsert st tgId carId date payload carName carClass now =
        (newShiftRow st.nextId tgId carId date payload carName carClass now,
          ⟨st.rows ++ [newShiftRow st.nextId tgId carId date payload carName carClass now],
            st.nextId + 1⟩) := by
      simp [shiftUpsert, hu]
    rw [hres]
    refine ⟨?_, ?_, ?_, fun _ => rfl⟩
    · simp [List.countP_append, hcnt0, List.countP_cons, newShiftRow_triple]
    · exact find?_append_singleton _ _ _ hf (newShiftRow_triple _ _ _ _ _ _ _ _)
    · intro r1 hr1
      exact absurd hr1 (by simp)
  · -- existing row: update branch
    have h1 : (updateFirst (tripleMatch tgId carId date)
        (applyShiftSet payload carName carClass now) st.rows).1 =
        some (applyShiftSet payload carName carClass now r0) :=
      updateFirst_fst _ _ _ _ hf
    rcases hu : updateFirst (tripleMatch tgId carId date)
        (applyShiftSet payload carName carClass now) st.rows with ⟨o, rows2⟩
    rw [hu] at h1
    simp only at h1
    subst h1
    have hres : shiftUpsert st tgId carId date payload carName carClass now =
        (applyShiftSet payload carName carClass now r0, ⟨rows2, st.nextId⟩) := by
      simp [shiftUpsert, hu]
    have hcnt : rows2.countP (tripleMatch tgId carId date) =
        st.rows.countP (tripleMatch tgId carId date) := by
      have hc := updateFirst_countP (tripleMatch tgId carId date)
        (applyShiftSet payload carName carClass now) st.rows hpf
      rw [hu] at hc
      exact hc
    have hpos : 0 < st.rows.countP (tripleMatch tgId carId date) :=
      List.countP_pos_iff.mpr ⟨r0, List.mem_of_find?_eq_some hf, List.find?_some hf⟩
    have hone : st.rows.countP (tripleMatch tgId carId date) = 1 := by omega
    have hfind2 : rows2.find? (tripleMatch tgId carId date) =
        some (applyShiftSet payload carName carClass now r0) := by
      have hself := updateFirst_find?_self (tripleMatch tgId carId date)
        (applyShiftSet payload carName carClass now) st.rows r0 hf hpf
      rw [hu] at hself
      exact hself
    rw [hres]
    refine ⟨by simp [hcnt, hone], by simp [hfind2], ?_, ?_⟩
    · intro r1 hr1
      injection hr1 with hr1
      subst hr1
      rfl
    · intro hnone
      exact absurd hnone (by simp)

/-- C5: starting from any store holding at most one row for the key (the
unique-index invariant), `upsert(tgId, carId, date, p1)` followed by
`upsert(tgId, carId, date, p2)` leaves exactly one stored row for the triple —
never two — and that stored row is the row returned by the second call: its
payload equals `p2` wholesale (`p1` is not merged in), its `updatedAt` is the
second call's timestamp, and `carName`/`carClass` take the second call's value
exactly when that value is truthy (non-empty), otherwise they keep the value
stored after the first call. -/
theorem C5_upsert_thm (st : Store) (tgId : ℤ) (carId date : String)
    (p1 p2 : Option Payload) (n1 c1 n2 c2 : Option String) (t1 t2 : ℕ)
    (huniq : st.rows.countP (tripleMatch tgId carId date) ≤ 1) :
    (shiftUpsert (shiftUpsert st tgId carId date p1 n1 c1 t1).2
        tgId carId date p2 n2 c2 t2).2.rows.countP (tripleMatch tgId carId date) = 1
    ∧ (shiftUpsert (shiftUpsert st tgId carId date p1 n1 c1 t1).2
        tgId carId date p2 n2 c2 t2).2.rows.find? (tripleMatch tgId carId date) =
        some (shiftUpsert (shiftUpsert st tgId carId date p1 n1 c1 t1).2
          tgId carId date p2 n2 c2 t2).1
    ∧ (shiftUpsert (shiftUpsert st tgId carId date p1 n1 c1 t1).2
        tgId carId date p2 n2 c2 t2).1.payload = p2.getD emptyPayload
    ∧ (shiftUpsert (shiftUpsert st tgId carId date p1 n1 c1 t1).2
        tgId carId date p2 n2 c2 t2).1.updatedAt = t2
    ∧ (shiftUpsert (shiftUpsert st tgId carId date p1 n1 c1 t1).2
        tgId carId date p2 n2 c2 t2).1.carName =
        (if strTruthy n2 then n2
         else (shiftUpsert st tgId carId date p1 n1 c1 t1).1.carName)
    ∧ (shiftUpsert (shiftUpsert st tgId carId date p1 n1 c1 t1).2
        tgId carId date p2 n2 c2 t2).1.carClass =
        (if strTruthy c2 then c2
         else (shiftUpsert st tgId carId date p1 n1 c1 t1).1.carClass) := by
  obtain ⟨hc1, hf1, -, -⟩ := shiftUpsert_spec st tgId carId date p1 n1 c1 t1 huniq
  obtain ⟨hc2, hf2, hupd, -⟩ := shiftUpsert_spec (shiftUpsert st tgId carId date p1 n1 c1 t1).2
    tgId carId date p2 n2 c2 t2 (le_of_eq hc1)
  have h2 := hupd _ hf1
  refine ⟨hc2, hf2, ?_, ?_, ?_, ?_⟩
  · rw [h2]
    simp [applyShiftSet]
  · rw [h2]
    simp [applyShiftSet]
  · rw [h2]
    simp [applyShiftSet]
  · rw [h2]
    simp [applyShiftSet]

/-- C5 (witness): the double-upsert theorem applied on the empty store with
two concrete distinct payloads: exactly one row remains for the key. -/
theorem C5_witness :
    (shiftUpsert (shiftUpsert ⟨[], 0⟩ 1 "A" "2024-01-01"
        (some { income := some (JValue.num 1) }) (some "Car") none 1).2
        1 "A" "2024-01-01" (some { income := some (JValue.num 2) }) none none 2).2.rows.countP
      (tripleMatch 1 "A" "2024-01-01") = 1 :=
  (C5_upsert_thm ⟨[], 0⟩ 1 "A" "2024-01-01"
    (some { income := some (JValue.num 1) }) (some { income := some (JValue.num 2) })
    (some "Car") none none none 1 2 (by decide)).1

/-- Helper: the bulk loop produces one result slot per item. -/
theorem bulkGo_length (fail : ℕ → Bool) (now : ℕ) (tgId : ℤ) :
    ∀ (items : List BulkItem) (idx : ℕ) (st : Store),
    (bulkGo fail now tgId idx st items).1.length = items.length := by
  intro items
  induction items with
  | nil => intro idx st; rfl
  | cons x rest ih =>
    intro idx st
    by_cases hv : itemValid x = true
    · by_cases hf : fail idx = true
      · simp [bulkGo, hv, hf, ih]
      · simp [bulkGo, hv, hf, ih]
    · simp [bulkGo, hv, ih]

/-- Helper: each result slot of the bulk loop is classified by its own item's
validity and its own index's store failure, independently of the other
items. -/
theorem bulkGo_get (fail : ℕ → Bool) (now : ℕ) (tgId : ℤ) :
    ∀ (items : List BulkItem) (idx i : ℕ) (st : Store) (it : BulkItem),
    items.get? i = some it →
    (itemValid it = false →
      (bulkGo fail now tgId idx st items).1.get? i =
        some (.errRes (idx + i) "CAR_ID_AND_DATE_REQUIRED"))
    ∧ (itemValid it = true → fail (idx + i) = true →
      (bulkGo fail now tgId idx st items).1.get? i =
        some (.errRes (idx + i) "UPSERT_FAILED"))
    ∧ (itemValid it = true → fail (idx + i) = false →
      ∃ rid ca d u, (bulkGo fail now tgId idx st items).1.get? i =
        some (.okRes (idx + i) rid ca d u)) := by
  intro items
  induction items with
  | nil => intro idx i st it h; simp at h
  | cons x rest ih =>
    intro idx i st it h
    cases i with
    | zero =>
      rw [List.get?_cons_zero] at h
      injection h with h
      subst h
      refine ⟨?_, ?_, ?_⟩
      · intro hinv
        simp [bulkGo, hinv]
      · intro hv hfail
        rw [Nat.add_zero] at hfail
        simp [bulkGo, hv, hfail]
      · intro hv hfail
        rw [Nat.add_zero] at hfail
        exact ⟨(shiftUpsert st tgId (x.carId.getD "") (x.date.getD "") x.payload
            x.carName x.carClass now).1._id,
          (shiftUpsert st tgId (x.carId.getD "") (x.date.getD "") x.payload
            x.carName x.carClass now).1.carId,
          (shiftUpsert st tgId (x.carId.getD "") (x.date.getD "") x.payload
            x.carName x.carClass now).1.date,
          (shiftUpsert st tgId (x.carId.getD "") (x.date.getD "") x.payload
            x.carName x.carClass now).1.updatedAt,
          by simp [bulkGo, hv, hfail]⟩
    | succ j =>
      rw [List.get?_cons_succ] at h
      have harith : idx + 1 + j = idx + (j + 1) := by omega
      by_cases hv : itemValid x = true
      · by_cases hf : fail idx = true
        · have ihh := ih (idx + 1) j st it h
          rw [harith] at ihh
          simpa [bulkGo, hv, hf] using ihh
        · have ihh := ih (idx + 1) j
            (shiftUpsert st tgId (x.carId.getD "") (x.date.getD "") x.payload
              x.carName x.carClass now).2 it h
          rw [harith] at ihh
          simpa [bulkGo, hv, hf] using ihh
      · have ihh := ih (idx + 1) j st it h
        rw [harith] at ihh
        simpa [bulkGo, hv] using ihh

/-- C9: `bulkUpsert` fails with `EMPTY_ITEMS` exactly when the item list is
empty; otherwise it returns one result per item, in the caller's array order
(`results[i]` describes `items[i]` and carries `idx = i`), and classifies each
slot independently of every other item: a missing/empty `carId` or `date`
yields `CAR_ID_AND_DATE_REQUIRED` at that index, a store-level failure yields
`UPSERT_FAILED` at that index, and every other index is processed normally
with an `ok` result. -/
theorem C9_bulk_thm (fail : ℕ → Bool) (now : ℕ) (tgId : ℤ) (items : List BulkItem)
    (st : Store) :
    (items = [] → bulkShiftsOp fail now tgId items st = .error "EMPTY_ITEMS")
    ∧ (items ≠ [] →
        bulkShiftsOp fail now tgId items st = .ok (bulkGo fail now tgId 0 st items)
        ∧ (bulkGo fail now tgId 0 st items).1.length = items.length
        ∧ ∀ i it, items.get? i = some it →
            (itemValid it = false →
              (bulkGo fail now tgId 0 st items).1.get? i =
                some (.errRes i "CAR_ID_AND_DATE_REQUIRED"))
            ∧ (itemValid it = true → fail i = true →
              (bulkGo fail now tgId 0 st items).1.get? i =
                some (.errRes i "UPSERT_FAILED"))
            ∧ (itemValid it = true → fail i = false →
              ∃ rid ca d u, (bulkGo fail now tgId 0 st items).1.get? i =
                some (.okRes i rid ca d u))) := by
  constructor
  · intro h
    subst h
    rfl
  · intro hne
    refine ⟨?_, bulkGo_length fail now tgId items 0 st, ?_⟩
    · simp [bulkShiftsOp, hne]
    · intro i it h
      have := bulkGo_get fail now tgId items 0 i st it h
      simpa using this

/-- C9 (witness): the theorem applied at the spec's three-item batch whose
middle item lacks `carId`: that slot alone reports
`CAR_ID_AND_DATE_REQUIRED` at index 1. -/
theorem C9_witness :
    (bulkGo (fun _ => false) 5 1 0 ⟨[], 0⟩
        [⟨some "A", some "2024-01-01", none, none, none⟩,
         ⟨none, some "2024-01-02", none, none, none⟩,
         ⟨some "B", some "2024-01-03", none, none, none⟩]).1.get? 1 =
      some (.errRes 1 "CAR_ID_AND_DATE_REQUIRED") :=
  (((C9_bulk_thm (fun _ => false) 5 1
      [⟨some "A", some "2024-01-01", none, none, none⟩,
       ⟨none, some "2024-01-02", none, none, none⟩,
       ⟨some "B", some "2024-01-03", none, none, none⟩] ⟨[], 0⟩).2
    (by decide)).2.2 1 ⟨none, some "2024-01-02", none, none, none⟩ rfl).1 rfl

/-! ## Theorems: ownership isolation (C1) -/

/-- Helper: filtering by a stronger predicate factors through a weaker one. -/
theorem filter_absorb {α : Type} (p q : α → Bool) (himp : ∀ r, p r = true → q r = true) :
    ∀ l : List α, (l.filter q).filter p = l.filter p := by
  intro l
  induction l with
  | nil => rfl
  | cons x xs ih =>
    by_cases hp : p x = true
    · simp [List.filter_cons, hp, himp x hp, ih]
    · by_cases hq : q x = true
      · simp [List.filter_cons, hp, hq, ih]
      · simp [List.filter_cons, hp, hq, ih]

/-- Helper: two lists agreeing on a weaker filter agree on a stronger one. -/
theorem filter_eq_of_filter_eq {α : Type} (p q : α → Bool)
    (himp : ∀ r, p r = true → q r = true) (l1 l2 : List α)
    (h : l1.filter q = l2.filter q) : l1.filter p = l2.filter p := by
  rw [← filter_absorb p q himp l1, ← filter_absorb p q himp l2, h]

/-- Helper: `find?` by a stronger predicate factors through a weaker filter. -/
theorem find?_filter_absorb {α : Type} (p q : α → Bool)
    (himp : ∀ r, p r = true → q r = true) :
    ∀ l : List α, (l.filter q).find? p = l.find? p := by
  intro l
  induction l with
  | nil => rfl
  | cons x xs ih =>
    by_cases hp : p x = true
    · simp [List.filter_cons, himp x hp, List.find?_cons_of_pos _ hp]
    · by_cases hq : q x = true
      · simp only [List.filter_cons, hq, if_pos]
        rw [List.find?_cons_of_neg _ (by simp [hp]), List.find?_cons_of_neg _ (by simp [hp])]
        exact ih
      · simp only [List.filter_cons, hq, Bool.false_eq_true, if_false]
        rw [List.find?_cons_of_neg _ (by simp [hp])]
        exact ih

/-- Helper: two lists agreeing on a weaker filter agree on `find?` by a
stronger predicate. -/
theorem find?_eq_of_filter_eq {α : Type} (p q : α → Bool)
    (himp : ∀ r, p r = true → q r = true) (l1 l2 : List α)
    (h : l1.filter q = l2.filter q) : l1.find? p = l2.find? p := by
  rw [← find?_filter_absorb p q himp l1, ← find?_filter_absorb p q himp l2, h]

/-- Helper: `updateFirst` commutes with filtering by a weaker predicate that
`f` preserves. -/
theorem updateFirst_filter_comm {α : Type} (p q : α → Bool) (f : α → α)
    (himp : ∀ r, p r = true → q r = true) (hpf : ∀ r, p r = true → q (f r) = true) :
    ∀ l : List α, updateFirst p f (l.filter q) =
      ((updateFirst p f l).1, ((updateFirst p f l).2).filter q) := by
  intro l
  induction l with
  | nil => rfl
  | cons x xs ih =>
    by_cases hp : p x = true
    · simp [List.filter_cons, himp x hp, updateFirst, hp, hpf x hp]
    · by_cases hq : q x = true
      · simp [List.filter_cons, hq, updateFirst, hp, ih]
      · simp [List.filter_cons, hq, updateFirst, hp, ih]

/-- Helper: `removeFirst` commutes with filtering by a weaker predicate. -/
theorem removeFirst_filter_comm {α : Type} (p q : α → Bool)
    (himp : ∀ r, p r = true → q r = true) :
    ∀ l : List α, removeFirst p (l.filter q) =
      ((removeFirst p l).1, ((removeFirst p l).2).filter q) := by
  intro l
  induction l with
  | nil => rfl
  | cons x xs ih =>
    by_cases hp : p x = true
    · simp [List.filter_cons, himp x hp, removeFirst, hp]
    · by_cases hq : q x = true
      · simp [List.filter_cons, hq, removeFirst, hp, ih]
      · simp [List.filter_cons, hq, removeFirst, hp, ih]

/-- Helper: `updateFirst` does not touch rows outside a predicate `q` that is
disjoint from `p` (before and after `f`). -/
theorem updateFirst_filter_untouched {α : Type} (p q : α → Bool) (f : α → α)
    (hdisj : ∀ r, p r = true → q r = false) (hdisjf : ∀ r, p r = true → q (f r) = false) :
    ∀ l : List α, ((updateFirst p f l).2).filter q = l.filter q := by
  intro l
  induction l with
  | nil => rfl
  | cons x xs ih =>
    by_cases hp : p x = true
    · simp [updateFirst, hp, List.filter_cons, hdisj x hp, hdisjf x hp]
    · simp [updateFirst, hp, List.filter_cons, ih]

/-- Helper: `removeFirst` does not touch rows outside a predicate disjoint
from `p`. -/
theorem removeFirst_filter_untouched {α : Type} (p q : α → Bool)
    (hdisj : ∀ r, p r = true → q r = false) :
    ∀ l : List α, ((removeFirst p l).2).filter q = l.filter q := by
  intro l
  induction l with
  | nil => rfl
  | cons x xs ih =>
    by_cases hp : p x = true
    · simp [removeFirst, hp, List.filter_cons, hdisj x hp]
    · simp [removeFirst, hp, List.filter_cons, ih]

/-- Helper: stores differing only in `A`-rows agree on any other owner's
rows. -/
theorem agreeOn_of_agreeExcept (A B : ℤ) (hAB : A ≠ B) (s1 s2 : Store)
    (h : agreeExceptOwner A s1 s2) : agreeOnOwner B s1 s2 := by
  refine ⟨?_, h.2⟩
  apply filter_eq_of_filter_eq (ownPred B) (fun r => r.tgId != A) ?_ _ _ h.1
  intro r hr
  have hB : r.tgId = B := by simpa [ownPred] using hr
  simpa [hB] using Ne.symm hAB

/-- Helper: stores agreeing on `B`-rows agree on any filter that implies
ownership by `B`. -/
theorem agree_filter_pred (B : ℤ) (s1 s2 : Store) (h : agreeOnOwner B s1 s2)
    (p : ShiftRow → Bool) (hp : ∀ r, p r = true → r.tgId = B) :
    s1.rows.filter p = s2.rows.filter p :=
  filter_eq_of_filter_eq p (ownPred B) (fun r hr => by simp [ownPred, hp r hr]) _ _ h.1

/-- Helper: stores agreeing on `B`-rows agree on any `find?` that implies
ownership by `B`. -/
theorem agree_find?_pred (B : ℤ) (s1 s2 : Store) (h : agreeOnOwner B s1 s2)
    (p : ShiftRow → Bool) (hp : ∀ r, p r = true → r.tgId = B) :
    s1.rows.find? p = s2.rows.find? p :=
  find?_eq_of_filter_eq p (ownPred B) (fun r hr => by simp [ownPred, hp r hr]) _ _ h.1

/-- Helper: the upsert filter pins the owner. -/
theorem tripleMatch_owner (B : ℤ) (c d : String) (r : ShiftRow) :
    tripleMatch B c d r = true → r.tgId = B := by
  intro h
  simp [tripleMatch] at h
  exact h.1.1

/-- Helper: an upsert by `B` returns the same row and preserves agreement on
`B`-rows across stores that agree on `B`-rows. -/
theorem shiftUpsert_agree (B : ℤ) (c d : String) (pl : Option Payload)
    (cn cc : Option String) (now : ℕ) (s1 s2 : Store) (h : agreeOnOwner B s1 s2) :
    (shiftUpsert s1 B c d pl cn cc now).1 = (shiftUpsert s2 B c d pl cn cc now).1
    ∧ agreeOnOwner B (shiftUpsert s1 B c d pl cn cc now).2
        (shiftUpsert s2 B c d pl cn cc now).2 := by
  have himp : ∀ r, tripleMatch B c d r = true → ownPred B r = true := fun r hr => by
    simp [ownPred, tripleMatch_owner B c d r hr]
  have hpf : ∀ r, tripleMatch B c d r = true →
      ownPred B (applyShiftSet pl cn cc now r) = true := fun r hr => by
    have hB := tripleMatch_owner B c d r hr
    simp [ownPred, applyShiftSet, hB]
  have e1 := updateFirst_filter_comm (tripleMatch B c d) (ownPred B)
    (applyShiftSet pl cn cc now) himp hpf s1.rows
  have e2 := updateFirst_filter_comm (tripleMatch B c d) (ownPred B)
    (applyShiftSet pl cn cc now) himp hpf s2.rows
  rw [h.1] at e1
  have heq := e1.symm.trans e2
  have h1 := congrArg Prod.fst heq
  have h2 := congrArg Prod.snd heq
  simp only at h1 h2
  rcases hu1 : updateFirst (tripleMatch B c d) (applyShiftSet pl cn cc now) s1.rows
    with ⟨o1, l1⟩
  rcases hu2 : updateFirst (tripleMatch B c d) (applyShiftSet pl cn cc now) s2.rows
    with ⟨o2, l2⟩
  rw [hu1, hu2] at h1 h2
  simp only at h1 h2
  subst h1
  cases o1 with
  | some r =>
    refine ⟨by simp [shiftUpsert, hu1, hu2], ?_, ?_⟩
    · simp only [shiftUpsert, hu1, hu2]
      exact h2
    · simp [shiftUpsert, hu1, hu2, h.2]
  | none =>
    refine ⟨by simp [shiftUpsert, hu1, hu2, h.2], ?_, ?_⟩
    · simp only [shiftUpsert, hu1, hu2]
      rw [List.filter_append, List.filter_append, h.1, h.2]
    · simp [shiftUpsert, hu1, hu2, h.2]

/-- Helper: an upsert by `B` never touches rows owned by a different `A`. -/
theorem shiftUpsert_preservesA (A B : ℤ) (hAB : A ≠ B) (c d : String)
    (pl : Option Payload) (cn cc : Option String) (now : ℕ) (s : Store) :
    ((shiftUpsert s B c d pl cn cc now).2).rows.filter (ownPred A) =
      s.rows.filter (ownPred A) := by
  have hdisj : ∀ r, tripleMatch B c d r = true → ownPred A r = false := fun r hr => by
    have hB := tripleMatch_owner B c d r hr
    simpa [ownPred, hB] using Ne.symm hAB
  have hdisjf : ∀ r, tripleMatch B c d r = true →
      ownPred A (applyShiftSet pl cn cc now r) = false := fun r hr => by
    have hB := tripleMatch_owner B c d r hr
    simpa [ownPred, applyShiftSet, hB] using Ne.symm hAB
  have hu := updateFirst_filter_untouched (tripleMatch B c d) (ownPred A)
    (applyShiftSet pl cn cc now) hdisj hdisjf s.rows
  rcases hu1 : updateFirst (tripleMatch B c d) (applyShiftSet pl cn cc now) s.rows
    with ⟨o, l⟩
  rw [hu1] at hu
  simp only at hu
  cases o with
  | some r => simpa [shiftUpsert, hu1] using hu
  | none =>
    simp only [shiftUpsert, hu1]
    rw [List.filter_append]
    have : ownPred A (newShiftRow s.nextId B c d pl cn cc now) = false := by
      simpa [ownPred, newShiftRow] using Ne.symm hAB
    simp [this]

/-- Helper: the bulk loop by `B` returns the same results and preserves
agreement on `B`-rows across stores that agree on `B`-rows. -/
theorem bulkGo_agree (fail : ℕ → Bool) (now : ℕ) (B : ℤ) :
    ∀ (items : List BulkItem) (idx : ℕ) (s1 s2 : Store), agreeOnOwner B s1 s2 →
    (bulkGo fail now B idx s1 items).1 = (bulkGo fail now B idx s2 items).1
    ∧ agreeOnOwner B (bulkGo fail now B idx s1 items).2 (bulkGo fail now B idx s2 items).2 := by
  intro items
  induction items with
  | nil => intro idx s1 s2 h; exact ⟨rfl, h⟩
  | cons x rest ih =>
    intro idx s1 s2 h
    by_cases hv : itemValid x = true
    · by_cases hfl : fail idx = true
      · obtain ⟨h1, h2⟩ := ih (idx + 1) s1 s2 h
        exact ⟨by simp [bulkGo, hv, hfl, h1], by simpa [bulkGo, hv, hfl] using h2⟩
      · obtain ⟨hup1, hup2⟩ := shiftUpsert_agree B (x.carId.getD "") (x.date.getD "")
          x.payload x.carName x.carClass now s1 s2 h
        obtain ⟨h1, h2⟩ := ih (idx + 1) _ _ hup2
        exact ⟨by simp [bulkGo, hv, hfl, hup1, h1], by simpa [bulkGo, hv, hfl] using h2⟩
    · obtain ⟨h1, h2⟩ := ih (idx + 1) s1 s2 h
      exact ⟨by simp [bulkGo, hv, h1], by simpa [bulkGo, hv] using h2⟩

/-- Helper: the bulk loop by `B` never touches rows owned by a different `A`. -/
theorem bulkGo_preservesA (fail : ℕ → Bool) (now : ℕ) (A B : ℤ) (hAB : A ≠ B) :
    ∀ (items : List BulkItem) (idx : ℕ) (s : Store),
    ((bulkGo fail now B idx s items).2).rows.filter (ownPred A) =
      s.rows.filter (ownPred A) := by
  intro items
  induction items with
  | nil => intro idx s; rfl
  | cons x rest ih =>
    intro idx s
    by_cases hv : itemValid x = true
    · by_cases hfl : fail idx = true
      · simpa [bulkGo, hv, hfl] using ih (idx + 1) s
      · have hpres := shiftUpsert_preservesA A B hAB (x.carId.getD "") (x.date.getD "")
          x.payload x.carName x.carClass now s
        have hih := ih (idx + 1) (shiftUpsert s B (x.carId.getD "") (x.date.getD "")
          x.payload x.carName x.carClass now).2
        simp only [bulkGo, hv, hfl]
        simp only [not_true_eq_false, if_false, Bool.false_eq_true]
        exact hih.trans hpres
    · simpa [bulkGo, hv] using ih (idx + 1) s

/-- C1 (amended): for distinct identities `A` and `B`, (i) the response of
every identity-scoped operation invoked by `B`, except a user-summary whose
`:tgId` parameter resolves to `A` itself, is independent of the Shift rows
owned by `A` (two runs on stores differing only in `A`'s rows produce the
same response), and (ii) unconditionally — for every request, the
user-summary with any `:tgId` included — no operation invoked by `B` ever
mutates a Shift row owned by `A`.  The user-summary endpoint with a `:tgId`
resolving to `A` aggregates `A`'s rows, so its response does depend on them
(see the counterexample). -/
theorem C1_isolation_amended (dateParse : String → Option ℕ) (fail : ℕ → Bool) (now : ℕ)
    (A B : ℤ) (req : Request) (s1 s2 : Store)
    (hAB : A ≠ B)
    (hagree : agreeExceptOwner A s1 s2) :
    (summaryNotTargeting A B req →
      (handle dateParse fail now B req s1).1 = (handle dateParse fail now B req s2).1)
    ∧ ∀ st : Store, ((handle dateParse fail now B req st).2).rows.filter (ownPred A) =
        st.rows.filter (ownPred A) := by
  have hB : agreeOnOwner B s1 s2 := agreeOn_of_agreeExcept A B hAB s1 s2 hagree
  constructor
  · intro htarget
    cases req with
    | postShift carId date payload carName carClass =>
      by_cases hc : strTruthy carId = true
      · by_cases hd : strTruthy date = true
        · have hup := (shiftUpsert_agree B (carId.getD "") (date.getD "") payload
            carName carClass now s1 s2 hB).1
          simp [handle, hc, hd, hup]
        · simp [handle, hc, hd]
      · simp [handle, hc]
    | bulkShifts items =>
      by_cases hi : items.isEmpty = true
      · simp [handle, bulkShiftsOp, hi]
      · have hbg := (bulkGo_agree fail now B items 0 s1 s2 hB).1
        simp [handle, bulkShiftsOp, hi, hbg]
    | listShifts fromD toD carId updatedSince =>
      have hf : s1.rows.filter (matchesListFilter B fromD toD carId updatedSince dateParse) =
          s2.rows.filter (matchesListFilter B fromD toD carId updatedSince dateParse) :=
        agree_filter_pred B s1 s2 hB _ (fun r hr => by
          simp only [matchesListFilter, Bool.and_eq_true] at hr
          exact eq_of_beq hr.1.1.1.1)
      simp [handle, listShiftsOp, hf]
    | getShift id =>
      have hf : s1.rows.find? (fun r => r._id == id && r.tgId == B) =
          s2.rows.find? (fun r => r._id == id && r.tgId == B) :=
        agree_find?_pred B s1 s2 hB _ (fun r hr => by
          simp only [Bool.and_eq_true] at hr
          exact eq_of_beq hr.2)
      rcases hv2 : s2.rows.find? (fun r => r._id == id && r.tgId == B) with _ | r
      · rw [hv2] at hf
        simp [handle, getShiftById, hf, hv2]
      · rw [hv2] at hf
        simp [handle, getShiftById, hf, hv2]
    | putShift id payload carName carClass =>
      have himp : ∀ r : ShiftRow, ((r._id == id && r.tgId == B) = true) →
          ownPred B r = true := fun r hr => by
        simp only [Bool.and_eq_true] at hr
        simp [ownPred, hr.2]
      have hpf : ∀ r : ShiftRow, ((r._id == id && r.tgId == B) = true) →
          ownPred B (applyShiftPatch payload carName carClass now r) = true := fun r hr => by
        simp only [Bool.and_eq_true] at hr
        simpa [ownPred, applyShiftPatch] using hr.2
      have e1 := updateFirst_filter_comm (fun r => r._id == id && r.tgId == B) (ownPred B)
        (applyShiftPatch payload carName carClass now) himp hpf s1.rows
      have e2 := updateFirst_filter_comm (fun r => r._id == id && r.tgId == B) (ownPred B)
        (applyShiftPatch payload carName carClass now) himp hpf s2.rows
      rw [hB.1] at e1
      have h1 := congrArg Prod.fst (e1.symm.trans e2)
      simp only at h1
      rcases ho : (updateFirst (fun r => r._id == id && r.tgId == B)
          (applyShiftPatch payload carName carClass now) s2.rows).1 with _ | r
      · rw [ho] at h1
        simp [handle, updateShiftById, h1, ho]
      · rw [ho] at h1
        simp [handle, updateShiftById, h1, ho]
    | deleteShift id =>
      have himp : ∀ r : ShiftRow, ((r._id == id && r.tgId == B) = true) →
          ownPred B r = true := fun r hr => by
        simp only [Bool.and_eq_true] at hr
        simp [ownPred, hr.2]
      have e1 := removeFirst_filter_comm (fun r => r._id == id && r.tgId == B) (ownPred B)
        himp s1.rows
      have e2 := removeFirst_filter_comm (fun r => r._id == id && r.tgId == B) (ownPred B)
        himp s2.rows
      rw [hB.1] at e1
      have h1 := congrArg Prod.fst (e1.symm.trans e2)
      simp only at h1
      rcases ho : (removeFirst (fun r => r._id == id && r.tgId == B) s2.rows).1 with _ | r
      · rw [ho] at h1
        simp [handle, deleteShiftById, h1, ho]
      · rw [ho] at h1
        simp [handle, deleteShiftById, h1, ho]
    | listCars =>
      have hf : s1.rows.filter (fun r => r.tgId == B) = s2.rows.filter (fun r => r.tgId == B) :=
        agree_filter_pred B s1 s2 hB _ (fun r hr => eq_of_beq hr)
      simp [handle, carsOp, hf]
    | carSummary carId fromD toD =>
      have hf : s1.rows.filter (fun r =>
            r.tgId == B && r.carId == carId
            && (if strTruthy fromD then strLe (fromD.getD "") r.date else true)
            && (if strTruthy toD then strLe r.date (toD.getD "") else true)) =
          s2.rows.filter (fun r =>
            r.tgId == B && r.carId == carId
            && (if strTruthy fromD then strLe (fromD.getD "") r.date else true)
            && (if strTruthy toD then strLe r.date (toD.getD "") else true)) :=
        agree_filter_pred B s1 s2 hB _ (fun r hr => by
          simp only [Bool.and_eq_true] at hr
          exact eq_of_beq hr.1.1.1)
      have hop : carSummaryOp s1 B carId fromD toD = carSummaryOp s2 B carId fromD toD := by
        simp only [carSummaryOp]
        rw [hf]
      simp [handle, hop]
    | userSummary p =>
      have hne := htarget p rfl
      have himp : ∀ r : ShiftRow,
          rowMatchesTarget (summaryTarget B p) r = true → (r.tgId != A) = true := by
        intro r hr
        rcases ht : summaryTarget B p with q | _ | _ | _ <;> rw [ht] at hr
        · have hq : (r.tgId : ℚ) = q := by simpa [rowMatchesTarget] using hr
          simp only [bne_iff_ne, ne_eq]
          intro hA
          exact hne (ht.trans (by rw [← hq, hA]))
        · simp [rowMatchesTarget] at hr
        · simp [rowMatchesTarget] at hr
        · simp [rowMatchesTarget] at hr
      have hf : s1.rows.filter (rowMatchesTarget (summaryTarget B p)) =
          s2.rows.filter (rowMatchesTarget (summaryTarget B p)) :=
        filter_eq_of_filter_eq _ (fun r => r.tgId != A) himp _ _ hagree.1
      simp [handle, userSummaryOp, hf]
  · intro st
    cases req with
    | postShift carId date payload carName carClass =>
      by_cases hc : strTruthy carId = true
      · by_cases hd : strTruthy date = true
        · simp only [handle, hc, hd, not_true_eq_false, if_false, Bool.false_eq_true]
          exact shiftUpsert_preservesA A B hAB (carId.getD "") (date.getD "") payload
            carName carClass now st
        · simp [handle, hc, hd]
      · simp [handle, hc]
    | bulkShifts items =>
      by_cases hi : items.isEmpty = true
      · simp [handle, bulkShiftsOp, hi]
      · simp only [handle, bulkShiftsOp, hi, Bool.false_eq_true, if_false]
        exact bulkGo_preservesA fail now A B hAB items 0 st
    | listShifts fromD toD carId updatedSince => simp [handle]
    | getShift id =>
      cases hf : getShiftById st B id <;> simp [handle, hf]
    | putShift id payload carName carClass =>
      have hdisj : ∀ r : ShiftRow, ((r._id == id && r.tgId == B) = true) →
          ownPred A r = false := fun r hr => by
        simp only [Bool.and_eq_true] at hr
        have hBr := eq_of_beq hr.2
        simpa [ownPred, hBr] using Ne.symm hAB
      have hdisjf : ∀ r : ShiftRow, ((r._id == id && r.tgId == B) = true) →
          ownPred A (applyShiftPatch payload carName carClass now r) = false := fun r hr => by
        simp only [Bool.and_eq_true] at hr
        have hBr := eq_of_beq hr.2
        simpa [ownPred, applyShiftPatch, hBr] using Ne.symm hAB
      have hto := updateFirst_filter_untouched (fun r => r._id == id && r.tgId == B)
        (ownPred A) (applyShiftPatch payload carName carClass now) hdisj hdisjf st.rows
      rcases hu : updateFirst (fun r => r._id == id && r.tgId == B)
        (applyShiftPatch payload carName carClass now) st.rows with ⟨o, l⟩
      rw [hu] at hto
      simp only at hto
      cases o <;> simp [handle, updateShiftById, hu, hto]
    | deleteShift id =>
      have hdisj : ∀ r : ShiftRow, ((r._id == id && r.tgId == B) = true) →
          ownPred A r = false := fun r hr => by
        simp only [Bool.and_eq_true] at hr
        have hBr := eq_of_beq hr.2
        simpa [ownPred, hBr] using Ne.symm hAB
      have hto := removeFirst_filter_untouched (fun r => r._id == id && r.tgId == B)
        (ownPred A) hdisj st.rows
      rcases hu : removeFirst (fun r => r._id == id && r.tgId == B) st.rows with ⟨o, l⟩
      rw [hu] at hto
      simp only at hto
      cases o <;> simp [handle, deleteShiftById, hu, hto]
    | listCars => simp [handle]
    | carSummary carId fromD toD => simp [handle]
    | userSummary p => simp [handle]

/-- C1 (counterexample): the claim asserts that every identity-scoped
operation invoked by `B`, the user-summary included, is independent of `A`'s
rows.  With `A = 1` owning one shift row and `B = 2` authenticated, the
request `GET /api/users/1/summary` issued by `B` returns different responses
on a store holding `A`'s row and on the store with `A`'s rows removed — the
two stores differ only in `A`'s rows, so the response depends on (and
aggregates) `A`'s data. -/
theorem C1_counterexample :
    (1 : ℤ) ≠ 2
    ∧ agreeExceptOwner 1
        ⟨[⟨0, 1, "car", none, none, "2024-01-01", emptyPayload, 0⟩], 1⟩ ⟨[], 1⟩
    ∧ (handle (fun _ => none) (fun _ => false) 0 2 (.userSummary "1")
        ⟨[⟨0, 1, "car", none, none, "2024-01-01", emptyPayload, 0⟩], 1⟩).1 ≠
      (handle (fun _ => none) (fun _ => false) 0 2 (.userSummary "1") ⟨[], 1⟩).1 := by
  refine ⟨by decide, ⟨rfl, rfl⟩, ?_⟩
  have hst : JsNumber.strToNumber "1" = .num 1 := by
    norm_num +decide [JsNumber.strToNumber, JsNumber.parseNumeric,
      JsNumber.parseNumeric.signedDec, JsNumber.parseUnsignedDec, JsNumber.spanDigits,
      JsNumber.digitsVal, JsNumber.fracVal, JsNumber.parseExponent, JsNumber.isJsWs,
      JsNumber.isDigit, JsNumber.digitVal]
  have htg : summaryTarget 2 "1" = .num 1 := by
    simp +decide [summaryTarget, hst]
  have hrm : rowMatchesTarget (JSNum.num 1)
      (⟨0, 1, "car", none, none, "2024-01-01", emptyPayload, 0⟩ : ShiftRow) = true := by
    norm_num [rowMatchesTarget]
  have hprofit : calcProfit emptyPayload = ⟨0, 0, 0, 0, 0⟩ := by
    norm_num +decide [calcProfit, calcCommission, calcTax, emptyPayload, n, toNumber,
      jsOrNone, jvTruthy, isSet, defaultPark]
  have hn : n emptyPayload.income = 0 := rfl
  have h1 : (handle (fun _ => none) (fun _ => false) 0 2 (.userSummary "1")
      ⟨[⟨0, 1, "car", none, none, "2024-01-01", emptyPayload, 0⟩], 1⟩).1 =
      .okUserSummary ⟨1, 0, 0, 0⟩ [⟨"car", none, none, 1, 0, 0, 0⟩] := by
    norm_num [handle, userSummaryOp, htg, hrm, totalsOf, addRowTotals, carsAggOf,
      addRowCars, bumpCarAgg, initCarAgg, jsStrOrNull, hprofit, hn]
  have h2 : (handle (fun _ => none) (fun _ => false) 0 2 (.userSummary "1") ⟨[], 1⟩).1 =
      .okUserSummary ⟨0, 0, 0, 0⟩ [] := rfl
  rw [h1, h2]
  simp

/-- C1 (witness): the amended isolation theorem applied at a concrete
instance — caller `2`, foreign identity `1`, the `me`-targeted user-summary
request, equal stores — with both hypotheses and the independence guard
discharged. -/
theorem C1_witness :
    (handle (fun _ => none) (fun _ => false) 0 2 (.userSummary "me") ⟨[], 0⟩).1 =
      (handle (fun _ => none) (fun _ => false) 0 2 (.userSummary "me") ⟨[], 0⟩).1
    ∧ ∀ st : Store,
        ((handle (fun _ => none) (fun _ => false) 0 2 (.userSummary "me") st).2).rows.filter
          (ownPred 1) = st.rows.filter (ownPred 1) := by
  have T := C1_isolation_amended (fun _ => none) (fun _ => false) 0 1 2 (.userSummary "me")
    ⟨[], 0⟩ ⟨[], 0⟩ (by decide) ⟨rfl, rfl⟩
  refine ⟨T.1 ?_, T.2⟩
  intro p h
  simp only [Request.userSummary.injEq] at h
  subst h
  simp only [summaryTarget, if_pos, ne_eq, JSNum.num.injEq]
  norm_num
